import Mathlib

set_option maxRecDepth 16000

/-!
Verification development for the Hyperliquid order-signing and execution
pipeline of the `invest-simply` repository.

The definitions below are shallow embeddings of the TypeScript edge
functions `supabase/functions/spot-buy/index.ts`,
`supabase/functions/agent-wallet/index.ts` and
`supabase/functions/sync-hyperliquid/index.ts`.

Modelling conventions:
* JS strings are Lean `String`s (lists of characters where character-level
  work is needed).
* JS `number` values that can be `NaN` are modelled as `Option ℚ`
  (`none` = not-a-number / non-finite); ordinary finite arithmetic is `ℚ`.
* JS truthiness on nullable strings (`null`/`undefined`/`""` falsy) is
  `jsTruthyStr`.
* External libraries (msgpack encoder, keccak256, EIP-712 signer, AES-GCM
  encryption, `atob`, `parseFloat`) are parameters of the embedded
  functions, so theorems quantify over their behaviour.
* Database writes are modelled as explicit update/insert records so that
  "which columns were written together" is observable.
-/

namespace InvestSimply

/-- Decidable equality for `Except` results, used to settle concrete
evaluations by `decide`. -/
instance exceptDecEq {ε α : Type} [DecidableEq ε] [DecidableEq α] :
    DecidableEq (Except ε α) := fun x y =>
  match x, y with
  | .error e, .error f =>
    if h : e = f then .isTrue (by rw [h])
    else .isFalse (by intro hh; cases hh; exact h rfl)
  | .ok a, .ok b =>
    if h : a = b then .isTrue (by rw [h])
    else .isFalse (by intro hh; cases hh; exact h rfl)
  | .error _, .ok _ => .isFalse (by intro hh; cases hh)
  | .ok _, .error _ => .isFalse (by intro hh; cases hh)

/-- JS truthiness for a nullable string: `null`/`undefined` and `""` are falsy. -/
def jsTruthyStr (s : Option String) : Bool :=
  match s with
  | none => false
  | some v => v ≠ ""

/-- Byte strings are lists of naturals (each < 256 where it matters). -/
abbrev Bytes := List Nat

/-- Chunk a big-endian list of hex-digit values into bytes, two digits per
byte, as JS `str.match(/.{1,2}/g)!.map(b => parseInt(b, 16))` does on the
corresponding hex string (a trailing odd digit becomes its own element). -/
def pairify : List Nat → List Nat
  | a :: b :: rest => (16 * a + b) :: pairify rest
  | [a] => [a]
  | [] => []

/-- Big-endian value of a digit list in base `b` (the number a positional
numeral denotes). -/
def valBE (b : Nat) (l : List Nat) : Nat :=
  l.foldl (fun acc d => acc * b + d) 0

/-- The hex digits (big-endian, as values) of `BigInt(n).toString(16)`:
no leading zeros, and a single `0` digit for `n = 0`. -/
def jsHexDigitsBE (n : Nat) : List Nat :=
  if n = 0 then [0] else (Nat.digits 16 n).reverse

/-- `padStart(16, "0")` on a hex-digit list. -/
def padStart16 (l : List Nat) : List Nat :=
  List.replicate (16 - l.length) 0 ++ l

/-- `spot-buy/index.ts` lines 375–376: the nonce rendered as a 16-digit hex
string and re-parsed two digits at a time into bytes. -/
def nonceToBytes (nonce : Nat) : Bytes :=
  pairify (padStart16 (jsHexDigitsBE nonce))

/-- The specification-side meaning of "the nonce as 8 raw big-endian
bytes". -/
def beBytes8 (n : Nat) : Bytes :=
  [n / 256 ^ 7 % 256, n / 256 ^ 6 % 256, n / 256 ^ 5 % 256, n / 256 ^ 4 % 256,
   n / 256 ^ 3 % 256, n / 256 ^ 2 % 256, n / 256 % 256, n % 256]

/-- Value of a single hex character, as JS `parseInt` reads it (lowercase
and uppercase letters); non-hex characters get a junk value `0` (the code
only ever applies this to well-formed hex strings). -/
def hexCharVal (c : Char) : Nat :=
  if '0' ≤ c ∧ c ≤ '9' then c.toNat - '0'.toNat
  else if 'a' ≤ c ∧ c ≤ 'f' then c.toNat - 'a'.toNat + 10
  else if 'A' ≤ c ∧ c ≤ 'F' then c.toNat - 'A'.toNat + 10
  else 0

/-- Is the character a lowercase hex digit? -/
def isHexLower (c : Char) : Bool :=
  ('0' ≤ c && c ≤ '9') || ('a' ≤ c && c ≤ 'f')

/-- Initial-segment test on character lists: is `p` a leading run of `l`? -/
def leadsWith : List Char → List Char → Bool
  | [], _ => true
  | _ :: _, [] => false
  | a :: as, b :: bs => a == b && leadsWith as bs

/-- Does `sub` occur contiguously inside the character list? -/
def hasSub (sub : List Char) : List Char → Bool
  | [] => leadsWith sub []
  | c :: rest => leadsWith sub (c :: rest) || hasSub sub rest

/-- JS `hay.includes(sub)`. -/
def jsIncludes (hay sub : String) : Bool :=
  hasSub sub.toList hay.toList

/-- JS `s.startsWith(p)`. -/
def jsStartsWith (s p : String) : Bool :=
  leadsWith p.toList s.toList

/-- JS `s.startsWith("0x") ? s.slice(2) : s`. -/
def strip0x (s : String) : String :=
  if jsStartsWith s "0x" then String.mk (s.toList.drop 2) else s

/-- JS `toLowerCase`, character by character. -/
def jsToLower (s : String) : String :=
  String.mk (s.toList.map Char.toLower)

/-- Parse a hex string (without `0x`) into bytes the way the source does:
lowercase it, split into 2-character chunks, `parseInt` each. -/
def hexStringToBytes (s : String) : Bytes :=
  pairify ((jsToLower (strip0x s)).toList.map hexCharVal)

end InvestSimply

namespace InvestSimply

/-! ### Msgpack value trees and the two action object literals (C2)

The msgpack library serializes a JS object by walking its fields in
insertion order, so an object literal is faithfully represented as an
ordered key/value tree. -/

/-- An insertion-ordered JSON/msgpack-style value. -/
inductive MVal where
  | str : String → MVal
  | nat : Nat → MVal
  | bool : Bool → MVal
  | arr : List MVal → MVal
  | map : List (String × MVal) → MVal

/-- `spot-buy/index.ts` lines 572–585: the object sent as the HTTP
request's `action` field. -/
def actionBody (spotAssetId : Nat) (formattedPrice formattedSize : String) : MVal :=
  .map [("type", .str "order"),
        ("orders", .arr [
          .map [("a", .nat spotAssetId),
                ("b", .bool true),
                ("p", .str formattedPrice),
                ("s", .str formattedSize),
                ("r", .bool false),
                ("t", .map [("limit", .map [("tif", .str "Ioc")])])]]),
        ("grouping", .str "na")]

/-- `spot-buy/index.ts` lines 589–602: the object passed to the msgpack
encoder for signing. -/
def actionForSigning (spotAssetId : Nat) (formattedPrice formattedSize : String) : MVal :=
  .map [("type", .str "order"),
        ("orders", .arr [
          .map [("a", .nat spotAssetId),
                ("b", .bool true),
                ("p", .str formattedPrice),
                ("s", .str formattedSize),
                ("r", .bool false),
                ("t", .map [("limit", .map [("tif", .str "Ioc")])])]]),
        ("grouping", .str "na")]

/-! ### The L1-action signing pipeline (C1) -/

/-- An (r, s, v) signature triple in the wire format the code produces. -/
structure Rsv where
  r : String
  s : String
  v : Nat
deriving DecidableEq, Repr

/-- The EIP-712 domain record used for signing. -/
structure Eip712Domain where
  name : String
  version : String
  chainId : Nat
  verifyingContract : String
deriving DecidableEq, Repr

/-- The single-field `Agent` message that is signed. -/
structure AgentMessage where
  source : String
  connectionId : Bytes
deriving DecidableEq, Repr

/-- The typed data handed to `account.signTypedData`. -/
structure AgentTypedData where
  domain : Eip712Domain
  message : AgentMessage
deriving DecidableEq, Repr

/-- `spot-buy/index.ts` lines 406–411: the fixed signing domain. -/
def hyperliquidDomain : Eip712Domain :=
  { name := "Exchange", version := "1", chainId := 1337,
    verifyingContract := "0x0000000000000000000000000000000000000000" }

/-- `spot-buy/index.ts` lines 341–355, `hexToRsv`. The `/^0x0+/ → "0x"`
regex replacement on a string of the form `"0x" ++ body` is exactly
dropping the leading `'0'` characters of `body`. -/
def hexToRsv (signatureHex : String) : Rsv :=
  let sig := if jsStartsWith signatureHex "0x" then signatureHex.toList.drop 2
             else signatureHex.toList
  let r := "0x" ++ String.mk ((sig.take 64).dropWhile (· == '0'))
  let s := "0x" ++ String.mk (((sig.drop 64).take 64).dropWhile (· == '0'))
  let v0 := ((sig.drop 128).take 2).foldl (fun acc c => acc * 16 + hexCharVal c) 0
  { r := r, s := s, v := if v0 < 27 then v0 + 27 else v0 }

/-- `spot-buy/index.ts` lines 359–425, `signL1ActionWithAgentWallet`.
The external msgpack encoder, keccak-256 hash and EIP-712 signer are
parameters; the byte plumbing (nonce, vault marker, concatenation) and the
typed-data construction are embedded from the source. The JS truthiness
test `vaultAddress ? … : …` treats `null` and `""` as absent. -/
def signL1ActionWithAgentWallet
    (msgpackEnc : MVal → Bytes) (keccak256 : Bytes → Bytes)
    (signTypedData : AgentTypedData → String)
    (action : MVal) (nonce : Nat) (isMainnet : Bool)
    (vaultAddress : Option String) : Rsv :=
  let actionBytes := msgpackEnc action
  let nonceBytes := nonceToBytes nonce
  let vaultMarker : Bytes := if jsTruthyStr vaultAddress then [1] else [0]
  let vaultBytes : Bytes :=
    if jsTruthyStr vaultAddress then hexStringToBytes (vaultAddress.getD "") else []
  let concat := actionBytes ++ nonceBytes ++ vaultMarker ++ vaultBytes
  let connectionId := keccak256 concat
  let signatureHex := signTypedData
    { domain := hyperliquidDomain,
      message := { source := if isMainnet then "a" else "b", connectionId := connectionId } }
  hexToRsv signatureHex

/-- Specification-side tail of the hashed byte string: one marker byte,
then the 20 raw address bytes only when a vault address is supplied. -/
def vaultTailSpec (vaultAddress : Option String) : Bytes :=
  match vaultAddress with
  | none => [0]
  | some s => 1 :: hexStringToBytes s

/-- A well-formed vault address: `0x` followed by 40 hex digits (lowercase
after the code's own lowercasing; we require the lowercase form). -/
def vaultAddrOk : Option String → Prop
  | none => True
  | some s => jsStartsWith s "0x" = true ∧ (s.toList.drop 2).length = 40 ∧
      ∀ c ∈ s.toList.drop 2, isHexLower c = true

/-- Well-formedness of the signer's output: a `0x`-prefixed 130-hex-digit
string whose recovery byte is one of `0`, `1`, `27`, `28` (the values the
EIP-712 signer produces). -/
def sigHexOk (sigHex : String) : Prop :=
  jsStartsWith sigHex "0x" = true ∧ (sigHex.toList.drop 2).length = 130 ∧
    (let v0 := ((sigHex.toList.drop 2).drop 128).take 2 |>.foldl
        (fun acc c => acc * 16 + hexCharVal c) 0
     v0 = 0 ∨ v0 = 1 ∨ v0 = 27 ∨ v0 = 28)

/-- The typed data the claim says is signed: the fixed domain and the
message `{source, connectionId}` with `connectionId` the keccak-256 hash
of msgpack(action) ++ nonce-as-8-big-endian-bytes ++ vault tail. -/
def claimedTypedData (msgpackEnc : MVal → Bytes) (keccak256 : Bytes → Bytes)
    (action : MVal) (nonce : Nat) (isMainnet : Bool)
    (vaultAddress : Option String) : AgentTypedData :=
  { domain := hyperliquidDomain,
    message :=
      { source := if isMainnet then "a" else "b",
        connectionId := keccak256
          (msgpackEnc action ++ beBytes8 nonce ++ vaultTailSpec vaultAddress) } }

/-! ### Agent-wallet lifecycle (C3, C10)

The three agent-wallet columns of the `profiles` row, and profile updates
as explicit records so one can observe which columns a single `update`
call writes. An update field of `none` means "column not mentioned in
this update"; `some v` means "column set to `v`". -/

/-- The agent-wallet columns of a `profiles` row. -/
structure ProfileRow where
  agent_wallet_address : Option String
  agent_wallet_private_key_encrypted : Option String
  agent_wallet_authorized_at : Option String
deriving DecidableEq, Repr

/-- One `supabase.from("profiles").update({...})` call, recording exactly
which of the three agent-wallet columns it mentions. -/
structure ProfileUpdate where
  agent_wallet_address : Option (Option String)
  agent_wallet_private_key_encrypted : Option (Option String)
  agent_wallet_authorized_at : Option (Option String)
deriving DecidableEq, Repr

/-- Apply one update to a row (columns not mentioned keep their value). -/
def applyUpdate (row : ProfileRow) (u : ProfileUpdate) : ProfileRow :=
  { agent_wallet_address := u.agent_wallet_address.getD row.agent_wallet_address,
    agent_wallet_private_key_encrypted :=
      u.agent_wallet_private_key_encrypted.getD row.agent_wallet_private_key_encrypted,
    agent_wallet_authorized_at :=
      u.agent_wallet_authorized_at.getD row.agent_wallet_authorized_at }

/-- Apply a list of updates in order. -/
def applyUpdates (row : ProfileRow) (us : List ProfileUpdate) : ProfileRow :=
  us.foldl applyUpdate row

/-- The external cryptographic collaborators of the agent-wallet code, for
one request: AES-GCM decryption/encryption (already specialised to the
profile id the code derives the key from), the base64 decoder `atob`
(`none` models a thrown `InvalidCharacterError`), the fresh private key
`generatePrivateKey()` would return in this invocation, and
`privateKeyToAccount(k).address`. -/
structure CryptoEnv where
  decryptPrivateKey : String → Option String
  atob : String → Option String
  encryptPrivateKey : String → String
  generatePrivateKey : String
  privateKeyToAddress : String → String

/-- JS `decoded.split(":")` on character lists. -/
def splitOnChar (sep : Char) : List Char → List (List Char)
  | [] => [[]]
  | c :: rest =>
    if c = sep then [] :: splitOnChar sep rest
    else
      match splitOnChar sep rest with
      | h :: t => (c :: h) :: t
      | [] => [[c]]

/-- Rejoin split parts with the separator (JS `parts.join(":")`). -/
def joinWithChar (sep : Char) : List (List Char) → List Char
  | [] => []
  | [x] => x
  | x :: xs => x ++ sep :: joinWithChar sep xs

/-- `spot-buy/index.ts` lines 116–127 and `agent-wallet/index.ts` lines
89–100, `decryptLegacyKey`: base64-decode, split on `":"`, and rejoin
everything after the first part. -/
def decryptLegacyKey (atob : String → Option String) (encrypted : String) : Option String :=
  match atob encrypted with
  | none => none
  | some decoded =>
    let parts := splitOnChar ':' decoded.toList
    if parts.length ≥ 2 then some (String.mk (joinWithChar ':' (parts.drop 1)))
    else none

/-- The single three-column update written by `rotateAgentWallet`
(`spot-buy/index.ts` lines 177–185) and by the rotation branch of
`agent-wallet/index.ts` (lines 181–188): new address, new ciphertext,
authorization timestamp cleared, in one `update` call. -/
def rotationUpdate (env : CryptoEnv) : ProfileUpdate :=
  { agent_wallet_address := some (some (env.privateKeyToAddress env.generatePrivateKey)),
    agent_wallet_private_key_encrypted :=
      some (some (env.encryptPrivateKey env.generatePrivateKey)),
    agent_wallet_authorized_at := some none }

/-- `spot-buy/index.ts` lines 171–193, `rotateAgentWallet`: generate a
keypair, encrypt, persist all three columns at once, return the pair. -/
def rotateAgentWallet (env : CryptoEnv) : ProfileUpdate × String × String :=
  (rotationUpdate env,
   env.privateKeyToAddress env.generatePrivateKey, env.generatePrivateKey)

/-- The key-column-only update of the legacy-migration path
(`spot-buy/index.ts` lines 207–210, `agent-wallet/index.ts` lines
144–147). -/
def migrationUpdate (env : CryptoEnv) (privateKey : String) : ProfileUpdate :=
  { agent_wallet_address := none,
    agent_wallet_private_key_encrypted := some (some (env.encryptPrivateKey privateKey)),
    agent_wallet_authorized_at := none }

/-- `spot-buy/index.ts` lines 167–234, `ensureAgentWallet`. Returns the
list of profile updates issued (in order) and the `{address, privateKey}`
result. JS truthiness guards (`""` falsy) are preserved. -/
def ensureAgentWallet (env : CryptoEnv) (profile : ProfileRow) :
    List ProfileUpdate × String × String :=
  if jsTruthyStr profile.agent_wallet_private_key_encrypted &&
      jsTruthyStr profile.agent_wallet_address then
    let encKey := profile.agent_wallet_private_key_encrypted.getD ""
    let storedAddr := profile.agent_wallet_address.getD ""
    let pk1 := env.decryptPrivateKey encKey
    let pkAndMigration : Option String × List ProfileUpdate :=
      if jsTruthyStr pk1 then (pk1, [])
      else
        let pk2 := decryptLegacyKey env.atob encKey
        if jsTruthyStr pk2 then (pk2, [migrationUpdate env (pk2.getD "")])
        else (pk2, [])
    let privateKey := pkAndMigration.1
    let migration := pkAndMigration.2
    if jsTruthyStr privateKey then
      let k := privateKey.getD ""
      let derived := env.privateKeyToAddress k
      if jsToLower derived = jsToLower storedAddr then
        (migration, storedAddr, k)
      else
        let (u, r) := rotateAgentWallet env
        (migration ++ [u], r)
    else
      let (u, r) := rotateAgentWallet env
      (migration ++ [u], r)
  else
    let (u, r) := rotateAgentWallet env
    ([u], r)

/-- The response body of the `get-agent-address` action, reduced to the
fields the claims are about. -/
structure AgentAddrResponse where
  agentAddress : String
  isAuthorized : Bool
deriving DecidableEq, Repr

/-- `agent-wallet/index.ts` lines 114–236, the `get-agent-address`
action: validate an existing wallet (with legacy migration), rotate on
mismatch or undecryptable ciphertext, or create a fresh wallet when no
address is stored. Returns the updates issued and the response. -/
def getAgentAddress (env : CryptoEnv) (profile : ProfileRow) :
    List ProfileUpdate × AgentAddrResponse :=
  if jsTruthyStr profile.agent_wallet_address then
    let storedAddr := profile.agent_wallet_address.getD ""
    let encrypted := profile.agent_wallet_private_key_encrypted
    let decryptedAndMigration : Option String × List ProfileUpdate :=
      if jsTruthyStr encrypted then
        let d1 := env.decryptPrivateKey (encrypted.getD "")
        if jsTruthyStr d1 then (d1, [])
        else
          let d2 := decryptLegacyKey env.atob (encrypted.getD "")
          if jsTruthyStr d2 then (d2, [migrationUpdate env (d2.getD "")])
          else (d2, [])
      else (none, [])
    let decrypted := decryptedAndMigration.1
    let migration := decryptedAndMigration.2
    if jsTruthyStr decrypted &&
        (jsToLower (env.privateKeyToAddress (decrypted.getD "")) == jsToLower storedAddr) then
      (migration, { agentAddress := storedAddr,
                    isAuthorized := jsTruthyStr profile.agent_wallet_authorized_at })
    else
      (migration ++ [rotationUpdate env],
       { agentAddress := env.privateKeyToAddress env.generatePrivateKey,
         isAuthorized := false })
  else
    let agentPrivateKey := env.generatePrivateKey
    let agentAddress := env.privateKeyToAddress agentPrivateKey
    let encryptedKey := env.encryptPrivateKey agentPrivateKey
    ([{ agent_wallet_address := some (some agentAddress),
        agent_wallet_private_key_encrypted := some (some encryptedKey),
        agent_wallet_authorized_at := none }],
     { agentAddress := agentAddress, isAuthorized := false })

/-- The two-column update of the fresh-creation path of
`agent-wallet/index.ts` (lines 213–219): address and ciphertext only, the
authorization column is not mentioned. -/
def freshCreateUpdate (env : CryptoEnv) : ProfileUpdate :=
  { agent_wallet_address := some (some (env.privateKeyToAddress env.generatePrivateKey)),
    agent_wallet_private_key_encrypted :=
      some (some (env.encryptPrivateKey env.generatePrivateKey)),
    agent_wallet_authorized_at := none }

/-! ### JS numbers

JS `number` values are modelled as `Option ℚ`: `some q` is the finite
value `q`, `none` stands for a non-finite value (`NaN`; division by zero
is also mapped here). Every comparison on `NaN` is false in JS, which the
comparison helpers reproduce. -/

/-- A JS number: finite rational or non-finite. -/
abbrev JsNum := Option ℚ

/-- JS `<` (false when either side is non-finite). -/
def jsLt (a b : JsNum) : Bool :=
  match a, b with
  | some x, some y => decide (x < y)
  | _, _ => false

/-- JS `<=` (false when either side is non-finite). -/
def jsLe (a b : JsNum) : Bool :=
  match a, b with
  | some x, some y => decide (x ≤ y)
  | _, _ => false

/-- JS `Math.floor`. -/
def jsFloor (a : JsNum) : JsNum :=
  a.map (fun q => ((Int.floor q : ℤ) : ℚ))

/-- JS `Number.isInteger`. -/
def jsIsInteger (a : JsNum) : Bool :=
  match a with
  | some q => decide (q.den = 1)
  | none => false

/-- JS multiplication (non-finite absorbs). -/
def jsMul (a b : JsNum) : JsNum :=
  match a, b with
  | some x, some y => some (x * y)
  | _, _ => none

/-- JS division; division by zero is mapped to the non-finite value. -/
def jsDiv (a b : JsNum) : JsNum :=
  match a, b with
  | some x, some y => if y = 0 then none else some (x / y)
  | _, _ => none

/-- JS truthiness on a number (`0` and `NaN` falsy). -/
def jsTruthyNum (a : JsNum) : Bool :=
  match a with
  | some q => decide (q ≠ 0)
  | none => false

/-- Value of JS `x.toFixed(d)` re-parsed (`parseFloat`): round to `d`
decimal places; ties round half away from zero for the nonnegative values
the code feeds in (modelled as half-up). -/
def jsToFixedVal (q : ℚ) (d : Nat) : ℚ :=
  ((Int.floor (q * 10 ^ d + 1 / 2) : ℤ) : ℚ) / 10 ^ d

/-- `spot-buy/index.ts` lines 331–334, `formatSize`, at the level of the
numeric value the produced decimal string denotes (the trailing-zero
stripping of `parseFloat(...).toString()` changes the spelling, not the
value). A non-finite size stays non-finite (`"NaN"`). -/
def formatSize (size : JsNum) (szDecimals : Nat) : JsNum :=
  size.map (fun q => jsToFixedVal q szDecimals)

/-- `spot-buy/index.ts` lines 336–339, `formatPrice`: fixed 2-decimal
rounding, as a value. -/
def formatPrice (price : JsNum) : JsNum :=
  price.map (fun q => jsToFixedVal q 2)

/-! ### Spot asset resolution (C4, C8) -/

/-- One entry of the exchange's `spotMeta.universe` listing, with the
fields the code reads (`tokens` is carried but never used). -/
structure UniverseEntry where
  name : String
  tokens : List Nat
  index : Nat
  szDecimals : Option Nat
  minSz : Option String
deriving DecidableEq, Repr

/-- `spot-buy/index.ts` line 72: spot asset ids are offset by 10000. -/
def SPOT_ASSET_OFFSET : Nat := 10000

/-- `spot-buy/index.ts` lines 290–293: the alias table
(perp symbol → spot symbols). -/
def assetAliases (asset : String) : Option (List String) :=
  if asset = "BTC" then some ["WBTC", "BTC"]
  else if asset = "ETH" then some ["WETH", "ETH"]
  else none

/-- `spot-buy/index.ts` line 296: the list of symbols searched for. -/
def searchSymbols (asset : String) : List String :=
  asset :: ((assetAliases asset).getD [])

/-- The base token of a universe name: the part before `"/"`, with a
leading `"@"` stripped (`spot-buy/index.ts` lines 301–302). -/
def cleanBaseOf (name : String) : String :=
  let baseSymbol := String.mk (name.toList.takeWhile (fun c => c ≠ '/'))
  if jsStartsWith baseSymbol "@" then String.mk (baseSymbol.toList.drop 1)
  else baseSymbol

/-- The `universe.find` predicate of `spot-buy/index.ts` lines 300–309:
some searched symbol matches the entry by exact name, `"{sym}/USDC"`,
cleaned base token, or `"@{sym}"`. -/
def matchesEntry (asset : String) (u : UniverseEntry) : Bool :=
  (searchSymbols asset).any fun sym =>
    u.name == sym || u.name == sym ++ "/USDC" || cleanBaseOf u.name == sym ||
      u.name == "@" ++ sym

/-- The resolved spot asset descriptor (`minSz` as a JS number, since it
comes out of `parseFloat`). -/
structure SpotAssetInfo where
  assetId : Nat
  szDecimals : Nat
  name : String
  minSz : JsNum
deriving DecidableEq, Repr

/-- `spot-buy/index.ts` lines 268–329, `getSpotAssetInfo`, given the
fetched universe and the external `parseFloat` (a parameter, `none` for
`NaN`): find the first matching entry, offset its `index` by 10000,
default `szDecimals` to 4 when absent (`??`), and parse `minSz` when
truthy, else default to `10^-szDecimals`. -/
def getSpotAssetInfo (parseFloat : String → JsNum) (univ : List UniverseEntry)
    (asset : String) : Except String SpotAssetInfo :=
  match univ.find? (matchesEntry asset) with
  | none => .error ("Spot asset " ++ asset ++ " not found in spotMeta")
  | some spotInfo =>
    let assetId := SPOT_ASSET_OFFSET + spotInfo.index
    let szDecimals := spotInfo.szDecimals.getD 4
    let minSz : JsNum :=
      if jsTruthyStr spotInfo.minSz then parseFloat (spotInfo.minSz.getD "")
      else some (1 / 10 ^ szDecimals)
    .ok { assetId := assetId, szDecimals := szDecimals,
          name := spotInfo.name, minSz := minSz }

/-! ### Order quantity derivation, validation, and submission (C5)

`spot-buy/index.ts` lines 437–631, restricted to the data the size/price
policy depends on. The function below covers the segment from quantity
derivation (line 505) to the construction of the exchange request (line
623): returning `.ok` means the HTTP POST to the exchange's write
endpoint is issued with exactly the returned size and price; returning
`.error` means the handler throws the given `HttpError` before any write
call is made. -/

/-- An `HttpError` thrown by the handler: status code plus a tag naming
the throw site. -/
inductive BuyReject where
  | orderTooSmall
  | needWholeUnit
  | zeroFormattedSize
deriving DecidableEq, Repr

/-- The order-shaping inputs of the validation segment: raw request fields
(`amountUsd`, `quantity`, `slippage`), the fetched mid price, and the
resolved asset descriptor fields. -/
structure OrderInputs where
  amountUsd : JsNum
  quantity : JsNum
  slippage : ℚ
  currentPrice : ℚ
  szDecimals : Nat
  minSz : JsNum
deriving DecidableEq, Repr

/-- `spot-buy/index.ts` line 444: `quantity !== undefined && quantity > 0`. -/
def useQuantityMode (inp : OrderInputs) : Bool :=
  jsLt (some 0) inp.quantity

/-- `spot-buy/index.ts` lines 505–520: the computed quantity, with the
early flooring of the USD path for whole-unit assets. -/
def derivedQuantity (inp : OrderInputs) : JsNum :=
  if useQuantityMode inp then inp.quantity
  else
    let raw := jsDiv inp.amountUsd (some inp.currentPrice)
    if inp.szDecimals = 0 then jsFloor raw else raw

/-- The request the executor submits: the values denoted by the formatted
size and price strings. -/
structure SubmitOrder where
  size : JsNum
  price : JsNum
deriving DecidableEq, Repr

/-- `spot-buy/index.ts` lines 505–631: quantity derivation, limit price,
minimum-size check (line 526), whole-unit check (line 535), late flooring
(line 543), formatting, final positivity check (line 555), and
submission. -/
def spotBuyCore (inp : OrderInputs) : Except (Nat × BuyReject) SubmitOrder :=
  let amountCrypto := derivedQuantity inp
  let slippageMultiplier := 1 + inp.slippage / 100
  let limitPrice := inp.currentPrice * slippageMultiplier
  if jsLt amountCrypto inp.minSz then
    .error (400, .orderTooSmall)
  else if inp.szDecimals = 0 && jsLt amountCrypto (some 1) then
    .error (400, .needWholeUnit)
  else
    let amountCrypto :=
      if inp.szDecimals = 0 && !jsIsInteger amountCrypto then jsFloor amountCrypto
      else amountCrypto
    let formattedSize := formatSize amountCrypto inp.szDecimals
    let formattedPrice := formatPrice (some limitPrice)
    if jsLe formattedSize (some 0) then
      .error (400, .zeroFormattedSize)
    else
      .ok { size := formattedSize, price := formattedPrice }

/-! ### Exchange response interpretation and fill recording (C6, C7)

`spot-buy/index.ts` lines 640–758: the segment entered after the exchange
HTTP call returned with `response.ok` (HTTP 200) and the body parsed as
JSON. Database writes are returned as data: the profile updates issued,
the wallet-transaction row the recording loop tries to insert (if the
loop is reached at all), whether it was recorded, and the backoff delays
slept between failed attempts. -/

/-- A `wallet_transactions` row as the code inserts it. -/
structure TxRow where
  user_id : String
  type : String
  asset : String
  symbol : String
  amount : JsNum
  price : JsNum
  total : JsNum
  timestamp : String
  status : String
  hyperliquid_tx_hash : Option String
deriving DecidableEq, Repr

/-- The `filled` object of an order status, fields as optional strings. -/
structure HLFill where
  totalSz : Option String
  avgPx : Option String
  oid : Option String
deriving DecidableEq, Repr

/-- The first entry of `result.response.data.statuses`. -/
structure HLStatus where
  error : Option String
  filled : Option HLFill
deriving DecidableEq, Repr

/-- The success body of the handler, reduced to the fields the claims are
about; reuse `TxRow`'s shape is avoided by naming them explicitly. -/
structure BuySuccess where
  orderId : String
  amountUsd : JsNum
  amountCrypto : JsNum
  price : JsNum
deriving DecidableEq, Repr

/-- Outcome of the post-submission segment: all persistence effects plus
the HTTP result. `txAttempted` is the row the recording loop inserts
(`none` when the loop is never reached). -/
structure PostSubmitOutcome where
  profileUpdates : List ProfileUpdate
  txAttempted : Option TxRow
  txRecorded : Bool
  backoffDelays : List Nat
  result : Except (Nat × String) BuySuccess
deriving Repr

/-- `spot-buy/index.ts` lines 705–730: the bounded insert-with-backoff
loop; `ins n` tells whether the n-th insert attempt succeeds. Returns
(recorded?, delays slept). -/
def recordTxLoop (ins : Nat → Bool) : Nat → Nat → Bool × List Nat
  | 0, _ => (false, [])
  | fuel + 1, attempt =>
    if ins attempt then (true, [])
    else if fuel = 0 then (false, [])
    else
      let rest := recordTxLoop ins fuel (attempt + 1)
      (rest.1, (500 * 2 ^ attempt) :: rest.2)

/-- The success outcome with no profile updates and the recording loop's
effects. -/
def fillOutcome (ins : Nat → Bool) (row : TxRow) (success : BuySuccess) : PostSubmitOutcome :=
  let loopResult := recordTxLoop ins 3 0
  { profileUpdates := [], txAttempted := some row, txRecorded := loopResult.1,
    backoffDelays := loopResult.2, result := .ok success }

/-- An error outcome: no transaction recording is attempted. -/
def errOutcome (updates : List ProfileUpdate) (status : Nat) (message : String) :
    PostSubmitOutcome :=
  { profileUpdates := updates, txAttempted := none, txRecorded := false,
    backoffDelays := [], result := .error (status, message) }

/-- `spot-buy/index.ts` lines 647–758: interpretation of the parsed
exchange response (the HTTP call itself returned 200 and parsed as JSON).
Parameters: the external `parseFloat`, the insert-success oracle, the
wall-clock timestamp (as number and as ISO string), request context
(profile id, asset, agent address, formatted price, network mode), and
the response fields (`status`, `String(result.response ?? "")`, the first
order status). -/
def postSubmitResult (parseFloat : String → JsNum) (ins : Nat → Bool)
    (timestamp : Nat) (nowIso : String) (profileId asset agentAddress : String)
    (formattedPrice : String) (networkMode : String)
    (hlStatus : String) (hlResponseMsg : String) (status0 : Option HLStatus) :
    PostSubmitOutcome :=
  if hlStatus = "err" then
    if jsIncludes (jsToLower hlResponseMsg) "does not exist" then
      errOutcome
        [{ agent_wallet_address := none, agent_wallet_private_key_encrypted := none,
           agent_wallet_authorized_at := some none }]
        409
        ("Agent wallet not recognized by Hyperliquid yet. Open Wallet → Authorize Agent Wallet for "
          ++ agentAddress ++ ", then try again.")
    else
      errOutcome [] 502 ("Hyperliquid error: " ++ hlResponseMsg)
  else
    let orderStatusError := status0.bind (fun st => st.error)
    if jsTruthyStr orderStatusError then
      errOutcome [] 400 ("Order failed: " ++ orderStatusError.getD "")
    else
      match status0.bind (fun st => st.filled) with
      | none =>
        errOutcome [] 400
          ("Order not filled - no matching liquidity for " ++ asset ++ " at $"
            ++ formattedPrice ++ ". Try a higher slippage or check if " ++ asset
            ++ " has active trading on " ++ networkMode ++ ".")
      | some filledData =>
        let filledSize := parseFloat
          (if jsTruthyStr filledData.totalSz then filledData.totalSz.getD "" else "0")
        let avgPrice := parseFloat
          (if jsTruthyStr filledData.avgPx then filledData.avgPx.getD "" else "0")
        if jsLe filledSize (some 0) then
          errOutcome [] 400
            ("Order cancelled - no fills received. The market may not have liquidity for "
              ++ asset ++ ".")
        else
          let orderId :=
            if jsTruthyStr filledData.oid then filledData.oid.getD ""
            else "spot-" ++ toString timestamp
          let actualTotal := jsMul filledSize avgPrice
          let row : TxRow :=
            { user_id := profileId, type := "buy", asset := asset, symbol := asset,
              amount := filledSize, price := avgPrice, total := actualTotal,
              timestamp := nowIso, status := "completed",
              hyperliquid_tx_hash := some orderId }
          fillOutcome ins row
            { orderId := orderId, amountUsd := actualTotal,
              amountCrypto := filledSize, price := avgPrice }

/-! ### Sync reconciler transaction upsert loop (C9)

`sync-hyperliquid/index.ts` lines 276–305. The `wallet_transactions`
table is a list of rows; the repository's migration
`20251230000001_add_tx_hash_unique_constraint.sql` installs a unique
constraint on `(user_id, hyperliquid_tx_hash)`, so upsert with
`onConflict: 'user_id,hyperliquid_tx_hash'` updates the matching row in
place or inserts. The `hasConstraint` flag models a store without the
constraint, where the upsert is rejected and the code degrades to a plain
insert whose duplicate-key error (impossible without the constraint)
would be suppressed. -/

/-- The upsert conflict key. -/
def txKey (r : TxRow) : String × Option String :=
  (r.user_id, r.hyperliquid_tx_hash)

/-- Postgres upsert with `merge-duplicates` semantics: replace the
conflicting row, else append. -/
def upsertTx (db : List TxRow) (tx : TxRow) : List TxRow :=
  if db.any (fun r => txKey r = txKey tx) then
    db.map (fun r => if txKey r = txKey tx then tx else r)
  else
    db ++ [tx]

/-- Plain insert: rejected (no change) exactly when the unique constraint
exists and a row with the same key is present; the code treats that
duplicate-key error as non-fatal. -/
def insertTxFallback (hasConstraint : Bool) (db : List TxRow) (tx : TxRow) : List TxRow :=
  if hasConstraint && db.any (fun r => txKey r = txKey tx) then db
  else db ++ [tx]

/-- One iteration of the sync loop body for a single transaction:
skip rows without a truthy `hyperliquid_tx_hash`; upsert when the
constraint supports it; otherwise fall back to a plain insert with the
duplicate error suppressed. -/
def syncTxStep (hasConstraint : Bool) (db : List TxRow) (tx : TxRow) : List TxRow :=
  if jsTruthyStr tx.hyperliquid_tx_hash then
    if hasConstraint then upsertTx db tx
    else insertTxFallback hasConstraint db tx
  else db

/-- The whole transaction loop of `sync`, over the list built from
transfers and fills. -/
def syncTxLoop (hasConstraint : Bool) (db : List TxRow) (txs : List TxRow) : List TxRow :=
  txs.foldl (syncTxStep hasConstraint) db

/-! ### Positional-numeral facts used to relate the hex-string nonce
encoding to raw big-endian bytes -/

theorem valBE_append_singleton (b : Nat) (l : List Nat) (x : Nat) :
    valBE b (l ++ [x]) = valBE b l * b + x := by
  unfold valBE
  rw [List.foldl_append]
  rfl

theorem valBE_seed (b : Nat) (l : List Nat) (s : Nat) :
    l.foldl (fun acc d => acc * b + d) s = s * b ^ l.length + valBE b l := by
  induction l generalizing s with
  | nil => simp [valBE]
  | cons d l ih =>
    simp only [List.foldl_cons, List.length_cons]
    rw [ih (s * b + d)]
    have hd : valBE b (d :: l) = d * b ^ l.length + valBE b l := by
      show l.foldl (fun acc d => acc * b + d) (0 * b + d) = _
      rw [show (0 : Nat) * b + d = d by ring, ih d]
    rw [hd]
    ring

theorem valBE_cons (b x : Nat) (l : List Nat) :
    valBE b (x :: l) = x * b ^ l.length + valBE b l := by
  show l.foldl (fun acc d => acc * b + d) (0 * b + x) = _
  rw [show (0 : Nat) * b + x = x by ring, valBE_seed]

theorem valBE_replicate_zero (b k : Nat) (l : List Nat) :
    valBE b (List.replicate k 0 ++ l) = valBE b l := by
  induction k with
  | zero => simp
  | succ k ih =>
    rw [List.replicate_succ, List.cons_append, valBE_cons, ih]
    simp

theorem valBE_reverse_eq_ofDigits (b : Nat) (D : List Nat) :
    valBE b D.reverse = Nat.ofDigits b D := by
  induction D with
  | nil => rfl
  | cons d D ih =>
    rw [List.reverse_cons, valBE_append_singleton, ih, Nat.ofDigits_cons]
    ring

theorem valBE_jsHexDigitsBE (n : Nat) : valBE 16 (jsHexDigitsBE n) = n := by
  unfold jsHexDigitsBE
  split
  · simp_all [valBE]
  · rw [valBE_reverse_eq_ofDigits]
    exact_mod_cast Nat.ofDigits_digits 16 n

theorem jsHexDigitsBE_lt (n : Nat) : ∀ x ∈ jsHexDigitsBE n, x < 16 := by
  intro x hx
  unfold jsHexDigitsBE at hx
  split at hx
  · simp at hx
    omega
  · rw [List.mem_reverse] at hx
    exact Nat.digits_lt_base (by norm_num) hx

theorem jsHexDigitsBE_length_le (n : Nat) (h : n < 2 ^ 64) :
    (jsHexDigitsBE n).length ≤ 16 := by
  unfold jsHexDigitsBE
  split
  · simp
  · rw [List.length_reverse]
    have h16 : n < 16 ^ 16 := by norm_num at h ⊢; omega
    have hd := Nat.digits_len 16 n (by norm_num) (by assumption)
    rw [hd]
    have : Nat.log 16 n < 16 := Nat.log_lt_of_lt_pow (by assumption) h16
    omega

theorem pairify_length (l : List Nat) : (pairify l).length = (l.length + 1) / 2 := by
  induction l using pairify.induct with
  | case1 a b rest ih =>
    simp only [pairify, List.length_cons]
    omega
  | case2 a => simp [pairify]
  | case3 => rfl

theorem pairify_lt (l : List Nat) (h : ∀ x ∈ l, x < 16) :
    ∀ y ∈ pairify l, y < 256 := by
  induction l using pairify.induct with
  | case1 a b rest ih =>
    intro y hy
    simp only [pairify, List.mem_cons] at hy
    rcases hy with hy | hy
    · have ha := h a (by simp)
      have hb := h b (by simp)
      omega
    · exact ih (fun x hx => h x (by simp [hx])) y hy
  | case2 a =>
    intro y hy
    simp only [pairify, List.mem_singleton] at hy
    have := h a (by simp)
    omega
  | case3 => intro y hy; simp [pairify] at hy

theorem pairify_val (l : List Nat) (h : l.length % 2 = 0) :
    valBE 256 (pairify l) = valBE 16 l := by
  induction l using pairify.induct with
  | case1 a b rest ih =>
    simp only [List.length_cons] at h
    have hrest : rest.length % 2 = 0 := by omega
    simp only [pairify]
    rw [valBE_cons, valBE_cons, valBE_cons, ih hrest, pairify_length]
    simp only [List.length_cons]
    obtain ⟨m, hm⟩ : ∃ m, rest.length = 2 * m := ⟨rest.length / 2, by omega⟩
    rw [hm, show (2 * m + 1) / 2 = m by omega,
      show (256 : Nat) = 16 ^ 2 by norm_num, ← pow_mul,
      show 2 * m + 1 = (2 * m) + 1 by ring, pow_succ]
    ring
  | case2 a => simp at h
  | case3 => rfl

theorem valBE_lt (b : Nat) (l : List Nat) (h : ∀ x ∈ l, x < b) :
    valBE b l < b ^ l.length := by
  induction l with
  | nil => simp [valBE]
  | cons x l ih =>
    rw [valBE_cons, List.length_cons]
    have hx : x + 1 ≤ b := h x (by simp)
    have hl : valBE b l < b ^ l.length := ih (fun y hy => h y (by simp [hy]))
    calc x * b ^ l.length + valBE b l
        < (x + 1) * b ^ l.length := by nlinarith
      _ ≤ b * b ^ l.length := Nat.mul_le_mul_right _ hx
      _ = b ^ (l.length + 1) := by ring

theorem valBE_inj (l m : List Nat) (hlen : l.length = m.length)
    (hl : ∀ x ∈ l, x < 256) (hm : ∀ x ∈ m, x < 256)
    (hv : valBE 256 l = valBE 256 m) : l = m := by
  induction l generalizing m with
  | nil =>
    cases m with
    | nil => rfl
    | cons y m => simp at hlen
  | cons x l ih =>
    cases m with
    | nil => simp at hlen
    | cons y m =>
      simp only [List.length_cons, Nat.succ.injEq] at hlen
      rw [valBE_cons, valBE_cons, hlen] at hv
      have h1 : valBE 256 l < 256 ^ m.length := by
        rw [← hlen]
        exact valBE_lt 256 l (fun z hz => hl z (by simp [hz]))
      have h2 : valBE 256 m < 256 ^ m.length := valBE_lt 256 m (fun z hz => hm z (by simp [hz]))
      have hN : (0 : Nat) < 256 ^ m.length := Nat.pos_pow_of_pos _ (by norm_num)
      have hxy : x = y ∧ valBE 256 l = valBE 256 m := by
        constructor
        · have e1 : (x * 256 ^ m.length + valBE 256 l) / 256 ^ m.length = x := by
            rw [Nat.add_comm, Nat.add_mul_div_right _ _ hN, Nat.div_eq_of_lt h1]
            omega
          have e2 : (y * 256 ^ m.length + valBE 256 m) / 256 ^ m.length = y := by
            rw [Nat.add_comm, Nat.add_mul_div_right _ _ hN, Nat.div_eq_of_lt h2]
            omega
          rw [← e1, ← e2, hv]
        · have e1 : (x * 256 ^ m.length + valBE 256 l) % 256 ^ m.length = valBE 256 l := by
            rw [Nat.add_comm, Nat.add_mul_mod_self_right, Nat.mod_eq_of_lt h1]
          have e2 : (y * 256 ^ m.length + valBE 256 m) % 256 ^ m.length = valBE 256 m := by
            rw [Nat.add_comm, Nat.add_mul_mod_self_right, Nat.mod_eq_of_lt h2]
          rw [← e1, ← e2, hv]
      rw [hxy.1, ih m hlen (fun z hz => hl z (by simp [hz])) (fun z hz => hm z (by simp [hz])) hxy.2]

theorem beBytes8_lt (n : Nat) : ∀ x ∈ beBytes8 n, x < 256 := by
  intro x hx
  simp only [beBytes8, List.mem_cons, List.not_mem_nil, or_false] at hx
  rcases hx with h | h | h | h | h | h | h | h <;> subst h <;>
    exact Nat.mod_lt _ (by norm_num)

theorem valBE_beBytes8 (n : Nat) (h : n < 2 ^ 64) : valBE 256 (beBytes8 n) = n := by
  have h' : n < 18446744073709551616 := by norm_num at h; omega
  simp only [beBytes8, valBE, List.foldl]
  norm_num
  omega

/-- The stringly nonce encoding of the source (hex print, left pad to 16,
re-parse byte pairs) equals the raw 8-byte big-endian encoding, for every
nonce below `2 ^ 64`. This is the key step of claim C1. -/
theorem nonceToBytes_eq_beBytes8 (n : Nat) (h : n < 2 ^ 64) :
    nonceToBytes n = beBytes8 n := by
  have hlen : (jsHexDigitsBE n).length ≤ 16 := jsHexDigitsBE_length_le n h
  have hpadlen : (padStart16 (jsHexDigitsBE n)).length = 16 := by
    simp [padStart16]
    omega
  have hpadlt : ∀ x ∈ padStart16 (jsHexDigitsBE n), x < 16 := by
    intro x hx
    simp only [padStart16, List.mem_append, List.mem_replicate] at hx
    rcases hx with hx | hx
    · omega
    · exact jsHexDigitsBE_lt n x hx
  apply valBE_inj
  · rw [nonceToBytes, pairify_length, hpadlen]
    rfl
  · intro x hx
    exact pairify_lt _ hpadlt x hx
  · exact beBytes8_lt n
  · rw [nonceToBytes, pairify_val _ (by omega), padStart16, valBE_replicate_zero,
      valBE_jsHexDigitsBE, valBE_beBytes8 n h]

/-! ### Claim theorems -/

/-- C2: for every executed buy, the action object that is msgpack-encoded
for signing is identical — same fields, same insertion order, same
formatted string values — to the `action` object of the submitted HTTP
request body; hence every msgpack encoder produces byte-identical
encodings of the two, for all inputs. -/
theorem c2_action_objects_identical (spotAssetId : Nat)
    (formattedPrice formattedSize : String) :
    actionBody spotAssetId formattedPrice formattedSize =
      actionForSigning spotAssetId formattedPrice formattedSize ∧
    ∀ msgpackEnc : MVal → Bytes,
      msgpackEnc (actionBody spotAssetId formattedPrice formattedSize) =
        msgpackEnc (actionForSigning spotAssetId formattedPrice formattedSize) :=
  ⟨rfl, fun _ => rfl⟩

/-- C4: for every symbol that matches an entry of the spot universe, the
resolver returns `assetId = 10000 + (the matched entry's universe
index)`, `szDecimals` defaulted to 4 when absent, and `minSz` parsed from
the entry's `minSz` field or defaulted to `10^-szDecimals` when that
field is absent (well-formed metadata carries no empty `minSz` string);
an unmatched symbol fails with an asset-not-found error. -/
theorem c4_resolver_fields (parseFloat : String → JsNum)
    (univ : List UniverseEntry) (asset : String)
    (hws : ∀ u ∈ univ, u.minSz ≠ some "") :
    (∀ u, univ.find? (matchesEntry asset) = some u →
      getSpotAssetInfo parseFloat univ asset =
        .ok { assetId := 10000 + u.index,
              szDecimals := u.szDecimals.getD 4,
              name := u.name,
              minSz := match u.minSz with
                | some s => parseFloat s
                | none => some (1 / 10 ^ (u.szDecimals.getD 4)) }) ∧
    (univ.find? (matchesEntry asset) = none →
      getSpotAssetInfo parseFloat univ asset =
        .error ("Spot asset " ++ asset ++ " not found in spotMeta")) := by
  constructor
  · intro u hu
    have hmem : u ∈ univ := List.mem_of_find?_eq_some hu
    have hne : u.minSz ≠ some "" := hws u hmem
    unfold getSpotAssetInfo
    rw [hu]
    cases hminsz : u.minSz with
    | none => simp [jsTruthyStr, hminsz, SPOT_ASSET_OFFSET]
    | some s =>
      have hs : s ≠ "" := by
        intro hempty
        exact hne (hempty ▸ hminsz)
      simp [jsTruthyStr, hminsz, SPOT_ASSET_OFFSET, hs]
  · intro hnone
    unfold getSpotAssetInfo
    rw [hnone]

/-- C4 witness: a universe with a single entry lacking both optional
fields resolves with the documented defaults. -/
theorem c4_resolver_fields_witness :
    getSpotAssetInfo (fun _ => none)
        [{ name := "HYPE/USDC", tokens := [], index := 7, szDecimals := none,
           minSz := none }] "HYPE" =
      .ok { assetId := 10000 + 7, szDecimals := 4, name := "HYPE/USDC",
            minSz := some (1 / 10 ^ 4) } :=
  (c4_resolver_fields (fun _ => none)
      [{ name := "HYPE/USDC", tokens := [], index := 7, szDecimals := none,
         minSz := none }] "HYPE" (by decide)).1
    { name := "HYPE/USDC", tokens := [], index := 7, szDecimals := none,
      minSz := none } (by decide)

/-- C8 counterexample: the matcher is a single pass over the universe in
listing order applying all rules (including the alias rules) to every
entry, so with `WBTC/USDC` listed before `BTC/USDC`, the symbol `BTC`
resolves to the alias-derived `WBTC/USDC` entry even though an exact
`"{symbol}/USDC"` match exists later in the listing — contradicting the
claimed strict rule-priority order. -/
theorem c8_counterexample :
    getSpotAssetInfo (fun _ => some 1)
        [{ name := "WBTC/USDC", tokens := [], index := 0, szDecimals := some 5,
           minSz := some "0.0001" },
         { name := "BTC/USDC", tokens := [], index := 1, szDecimals := some 5,
           minSz := some "0.0001" }] "BTC" =
      .ok { assetId := 10000, szDecimals := 5, name := "WBTC/USDC",
            minSz := some 1 } ∧
    "BTC/USDC" = "BTC" ++ "/USDC" := by
  constructor
  · decide
  · rfl


/-- Helper: a string starting with `"0x"` is nonempty. -/
theorem jsStartsWith_0x_ne_empty (s : String) (h : jsStartsWith s "0x" = true) :
    s ≠ "" := by
  intro he
  rw [he] at h
  exact absurd h (by decide)

/-- Helper: `String.mk` and `toList` are inverse. -/
theorem toList_mk (l : List Char) : (String.mk l).toList = l := rfl

/-- Helper: a `0x`-prefixed 40-hex-digit vault address parses to 20
bytes. -/
theorem hexStringToBytes_length_of_40 (s : String)
    (h0 : jsStartsWith s "0x" = true) (hlen : (s.toList.drop 2).length = 40) :
    (hexStringToBytes s).length = 20 := by
  unfold hexStringToBytes strip0x
  rw [h0]
  simp only [if_true]
  rw [pairify_length]
  show ((((s.toList.drop 2).map Char.toLower).map hexCharVal).length + 1) / 2 = 20
  rw [List.length_map, List.length_map, hlen]

/-- C1: for every order action, nonce, mainnet flag, vault address and
key, the signing pipeline hashes msgpack(action) ++ nonce as 8 raw
big-endian bytes ++ one vault-marker byte (0 absent / 1 present) ++ the
20 raw vault-address bytes only when a vault address is supplied, signs
the EIP-712 message `{source := "a"/"b", connectionId}` under the fixed
domain `Exchange`/`1`/`1337`/zero contract, and returns `r` (signature
hex chars 0–63, i.e. bytes 0–31, leading zero digits stripped), `s`
(chars 64–127, same stripping) and `v` normalized into `{27, 28}`. -/
theorem c1_signing_pipeline
    (msgpackEnc : MVal → Bytes) (keccak256 : Bytes → Bytes)
    (signTypedData : AgentTypedData → String)
    (action : MVal) (nonce : Nat) (isMainnet : Bool) (vaultAddress : Option String)
    (hnonce : nonce < 2 ^ 64)
    (hvault : vaultAddrOk vaultAddress)
    (hsig : ∀ td, sigHexOk (signTypedData td)) :
    signL1ActionWithAgentWallet msgpackEnc keccak256 signTypedData action nonce
        isMainnet vaultAddress =
      hexToRsv (signTypedData
        (claimedTypedData msgpackEnc keccak256 action nonce isMainnet vaultAddress)) ∧
    (∀ s, vaultAddress = some s → (hexStringToBytes s).length = 20) ∧
    (signL1ActionWithAgentWallet msgpackEnc keccak256 signTypedData action nonce
        isMainnet vaultAddress).r =
      "0x" ++ String.mk ((((signTypedData
        (claimedTypedData msgpackEnc keccak256 action nonce isMainnet
          vaultAddress)).toList.drop 2).take 64).dropWhile (· == '0')) ∧
    (signL1ActionWithAgentWallet msgpackEnc keccak256 signTypedData action nonce
        isMainnet vaultAddress).s =
      "0x" ++ String.mk (((((signTypedData
        (claimedTypedData msgpackEnc keccak256 action nonce isMainnet
          vaultAddress)).toList.drop 2).drop 64).take 64).dropWhile (· == '0')) ∧
    ((signL1ActionWithAgentWallet msgpackEnc keccak256 signTypedData action nonce
        isMainnet vaultAddress).v = 27 ∨
     (signL1ActionWithAgentWallet msgpackEnc keccak256 signTypedData action nonce
        isMainnet vaultAddress).v = 28) := by
  have hmain : signL1ActionWithAgentWallet msgpackEnc keccak256 signTypedData action nonce
      isMainnet vaultAddress =
      hexToRsv (signTypedData
        (claimedTypedData msgpackEnc keccak256 action nonce isMainnet vaultAddress)) := by
    unfold signL1ActionWithAgentWallet claimedTypedData vaultTailSpec
    cases vaultAddress with
    | none =>
      simp [jsTruthyStr, nonceToBytes_eq_beBytes8 nonce hnonce]
    | some s =>
      obtain ⟨h0, _, _⟩ := hvault
      have hs : s ≠ "" := jsStartsWith_0x_ne_empty s h0
      simp [jsTruthyStr, hs, nonceToBytes_eq_beBytes8 nonce hnonce, List.append_assoc]
  set sigStr := signTypedData
    (claimedTypedData msgpackEnc keccak256 action nonce isMainnet vaultAddress) with hsigstr
  obtain ⟨h0x, hlen, hv⟩ := hsig
    (claimedTypedData msgpackEnc keccak256 action nonce isMainnet vaultAddress)
  refine ⟨hmain, ?_, ?_, ?_, ?_⟩
  · intro s hs
    rw [hs] at hvault
    obtain ⟨ha, hb, _⟩ := hvault
    exact hexStringToBytes_length_of_40 s ha hb
  · rw [hmain]
    unfold hexToRsv
    rw [h0x]
    simp
  · rw [hmain]
    unfold hexToRsv
    rw [h0x]
    simp
  · rw [hmain]
    unfold hexToRsv
    rw [h0x]
    simp only [if_true]
    have hv' :
        List.foldl (fun acc c => acc * 16 + hexCharVal c) 0
            (List.take 2 (List.drop 128 (List.drop 2 sigStr.toList))) = 0 ∨
        List.foldl (fun acc c => acc * 16 + hexCharVal c) 0
            (List.take 2 (List.drop 128 (List.drop 2 sigStr.toList))) = 1 ∨
        List.foldl (fun acc c => acc * 16 + hexCharVal c) 0
            (List.take 2 (List.drop 128 (List.drop 2 sigStr.toList))) = 27 ∨
        List.foldl (fun acc c => acc * 16 + hexCharVal c) 0
            (List.take 2 (List.drop 128 (List.drop 2 sigStr.toList))) = 28 := hv
    rcases hv' with h | h | h | h <;> rw [h] <;> simp

/-- C1 witness: the pipeline evaluated at concrete oracles, a concrete
action, nonce 3, mainnet, and a concrete vault address. -/
theorem c1_signing_pipeline_witness :
    signL1ActionWithAgentWallet (fun _ => [129]) (fun b => b)
        (fun _ => "0x000000000000000000000000000000000000000000000000000000000000000000000000000000000000000000000000000000000000000000000000000000001c") (MVal.str "x") 3 true
        (some "0x00112233445566778899aabbccddeeff00112233") =
      hexToRsv "0x000000000000000000000000000000000000000000000000000000000000000000000000000000000000000000000000000000000000000000000000000000001c" :=
  (c1_signing_pipeline (fun _ => [129]) (fun b => b) (fun _ => "0x000000000000000000000000000000000000000000000000000000000000000000000000000000000000000000000000000000000000000000000000000000001c")
    (MVal.str "x") 3 true (some "0x00112233445566778899aabbccddeeff00112233")
    (by norm_num)
    (by refine ⟨by decide, by decide, by decide⟩)
    (fun _ => (⟨by decide, by decide, by decide⟩ : sigHexOk "0x000000000000000000000000000000000000000000000000000000000000000000000000000000000000000000000000000000000000000000000000000000001c"))).1


/-- Helper: a successful `find?` splits the list into a prefix of
non-matches, the found element, and a tail. -/
theorem find?_decomp {α : Type} (p : α → Bool) (l : List α) (u : α)
    (h : l.find? p = some u) :
    ∃ pre post, l = pre ++ u :: post ∧ p u = true ∧ ∀ v ∈ pre, p v = false := by
  induction l with
  | nil => simp at h
  | cons x xs ih =>
    cases hpx : p x with
    | true =>
      rw [List.find?_cons_of_pos _ hpx] at h
      cases h
      exact ⟨[], xs, rfl, hpx, by simp⟩
    | false =>
      rw [List.find?_cons_of_neg _ (by simp [hpx])] at h
      obtain ⟨pre, post, hl, hpu, hpre⟩ := ih h
      refine ⟨x :: pre, post, by rw [hl]; rfl, hpu, ?_⟩
      intro v hv
      rcases List.mem_cons.mp hv with h1 | h1
      · exact h1 ▸ hpx
      · exact hpre v h1

/-- Helper: inversion of a successful resolution. -/
theorem getSpotAssetInfo_ok_inv (pf : String → JsNum) (univ : List UniverseEntry)
    (asset : String) (info : SpotAssetInfo)
    (h : getSpotAssetInfo pf univ asset = .ok info) :
    ∃ u, univ.find? (matchesEntry asset) = some u ∧ info.name = u.name ∧
      info.assetId = SPOT_ASSET_OFFSET + u.index := by
  unfold getSpotAssetInfo at h
  cases hf : univ.find? (matchesEntry asset) with
  | none => rw [hf] at h; cases h
  | some u =>
    rw [hf] at h
    cases h
    exact ⟨u, rfl, rfl, rfl⟩

/-- C8 amended: resolution is one pass over the universe in listing
order; an entry matches when any searched symbol (the symbol or one of
its aliases) matches it under any of the four rules, and the first entry
in listing order matching any rule wins — every entry earlier in the
listing that the resolver skipped matches no rule at all (so an
alias-derived entry earlier in the listing beats an exact or `"/USDC"`
match later in the listing). -/
theorem c8_amended (pf : String → JsNum) (univ : List UniverseEntry) (asset : String)
    (info : SpotAssetInfo) (h : getSpotAssetInfo pf univ asset = .ok info) :
    (∀ v : UniverseEntry, matchesEntry asset v = true ↔
      ∃ sym ∈ searchSymbols asset,
        v.name = sym ∨ v.name = sym ++ "/USDC" ∨ cleanBaseOf v.name = sym ∨
          v.name = "@" ++ sym) ∧
    ∃ pre u post, univ = pre ++ u :: post ∧ matchesEntry asset u = true ∧
      (∀ v ∈ pre, matchesEntry asset v = false) ∧
      info.name = u.name ∧ info.assetId = SPOT_ASSET_OFFSET + u.index := by
  constructor
  · intro v
    simp only [matchesEntry, List.any_eq_true, Bool.or_eq_true, beq_iff_eq]
    constructor
    · rintro ⟨sym, hmem, hcase⟩
      exact ⟨sym, hmem, by tauto⟩
    · rintro ⟨sym, hmem, hcase⟩
      exact ⟨sym, hmem, by tauto⟩
  · obtain ⟨u, hf, hname, hid⟩ := getSpotAssetInfo_ok_inv pf univ asset info h
    obtain ⟨pre, post, hl, hpu, hpre⟩ := find?_decomp (matchesEntry asset) univ u hf
    exact ⟨pre, u, post, hl, hpu, hpre, hname, hid⟩

/-- C8 amended witness: the single-entry universe resolves its own
symbol. -/
theorem c8_amended_witness :
    ∃ pre u post,
      ([{ name := "PURR/USDC", tokens := [], index := 42, szDecimals := some 0,
          minSz := some "1" }] : List UniverseEntry) = pre ++ u :: post ∧
      matchesEntry "PURR" u = true ∧
      (∀ v ∈ pre, matchesEntry "PURR" v = false) ∧
      ({ assetId := 10042, szDecimals := 0, name := "PURR/USDC",
         minSz := some 1 } : SpotAssetInfo).name = u.name ∧
      ({ assetId := 10042, szDecimals := 0, name := "PURR/USDC",
         minSz := some 1 } : SpotAssetInfo).assetId = SPOT_ASSET_OFFSET + u.index :=
  (c8_amended (fun _ => some 1)
    [{ name := "PURR/USDC", tokens := [], index := 42, szDecimals := some 0,
       minSz := some "1" }] "PURR"
    { assetId := 10042, szDecimals := 0, name := "PURR/USDC", minSz := some 1 }
    (by decide)).2

/-- C3 counterexample: in `agent-wallet`'s `get-agent-address`, the
no-stored-address creation path persists only the new address and the
new ciphertext; the single update does not mention the authorization
column, so a pre-existing authorization timestamp survives the creation
of a brand-new keypair — contradicting the claim that every creating
transition persists a null authorization timestamp in the same update. -/
theorem c3_counterexample :
    (getAgentAddress
        { decryptPrivateKey := fun _ => none, atob := fun _ => none,
          encryptPrivateKey := fun k => "enc:" ++ k, generatePrivateKey := "newkey",
          privateKeyToAddress := fun k => "addr:" ++ k }
        { agent_wallet_address := none, agent_wallet_private_key_encrypted := none,
          agent_wallet_authorized_at := some "2024-01-01" }).1 =
      [{ agent_wallet_address := some (some "addr:newkey"),
         agent_wallet_private_key_encrypted := some (some "enc:newkey"),
         agent_wallet_authorized_at := none }] ∧
    applyUpdates
        { agent_wallet_address := none, agent_wallet_private_key_encrypted := none,
          agent_wallet_authorized_at := some "2024-01-01" }
        (getAgentAddress
          { decryptPrivateKey := fun _ => none, atob := fun _ => none,
            encryptPrivateKey := fun k => "enc:" ++ k, generatePrivateKey := "newkey",
            privateKeyToAddress := fun k => "addr:" ++ k }
          { agent_wallet_address := none, agent_wallet_private_key_encrypted := none,
            agent_wallet_authorized_at := some "2024-01-01" }).1 =
      { agent_wallet_address := some "addr:newkey",
        agent_wallet_private_key_encrypted := some "enc:newkey",
        agent_wallet_authorized_at := some "2024-01-01" } := by
  constructor
  · decide
  · decide


/-- C3 amended: every key-creating or key-rotating transition of
spot-buy's `ensureAgentWallet`, and every rotation in agent-wallet's
`get-agent-address` when an address was stored, persists the new
address, the new ciphertext and a null authorization timestamp together
in one single update — so afterwards the stored timestamp is null and
the stored address derives from the newly stored key; but the
fresh-creation path of `get-agent-address` (no stored address) persists
only the address and ciphertext in its single update, leaving the
authorization timestamp column untouched. -/
theorem c3_amended (env : CryptoEnv) (profile : ProfileRow)
    (hround : env.decryptPrivateKey (env.encryptPrivateKey env.generatePrivateKey) =
      some env.generatePrivateKey) :
    (∀ u ∈ (ensureAgentWallet env profile).1, u.agent_wallet_address ≠ none →
        u = rotationUpdate env) ∧
    (jsTruthyStr profile.agent_wallet_address = true →
      ∀ u ∈ (getAgentAddress env profile).1, u.agent_wallet_address ≠ none →
        u = rotationUpdate env) ∧
    (jsTruthyStr profile.agent_wallet_address = false →
      (getAgentAddress env profile).1 = [freshCreateUpdate env] ∧
      (applyUpdates profile (getAgentAddress env profile).1).agent_wallet_authorized_at =
        profile.agent_wallet_authorized_at) ∧
    ((∃ u ∈ (ensureAgentWallet env profile).1, u.agent_wallet_address ≠ none) →
      (applyUpdates profile (ensureAgentWallet env profile).1).agent_wallet_authorized_at =
          none ∧
      (applyUpdates profile (ensureAgentWallet env profile).1).agent_wallet_address =
          some (env.privateKeyToAddress env.generatePrivateKey) ∧
      (applyUpdates profile (ensureAgentWallet env profile).1).agent_wallet_private_key_encrypted =
          some (env.encryptPrivateKey env.generatePrivateKey) ∧
      ((applyUpdates profile
          (ensureAgentWallet env profile).1).agent_wallet_private_key_encrypted.bind
            env.decryptPrivateKey).map env.privateKeyToAddress =
        some (env.privateKeyToAddress env.generatePrivateKey)) := by
  have htrace :
      (ensureAgentWallet env profile).1 = [] ∨
      (∃ k, (ensureAgentWallet env profile).1 = [migrationUpdate env k]) ∨
      (ensureAgentWallet env profile).1 = [rotationUpdate env] ∨
      (∃ k, (ensureAgentWallet env profile).1 =
        [migrationUpdate env k, rotationUpdate env]) := by
    unfold ensureAgentWallet rotateAgentWallet
    cases hb0 : jsTruthyStr profile.agent_wallet_private_key_encrypted &&
        jsTruthyStr profile.agent_wallet_address with
    | false => simp
    | true =>
      simp only [hb0, if_true]
      cases hb1 : jsTruthyStr
          (env.decryptPrivateKey (profile.agent_wallet_private_key_encrypted.getD "")) with
      | true =>
        simp only [hb1, if_true]
        split
        · simp
        · simp
      | false =>
        simp only [hb1, Bool.false_eq_true, if_false]
        cases hb2 : jsTruthyStr
            (decryptLegacyKey env.atob
              (profile.agent_wallet_private_key_encrypted.getD "")) with
        | true =>
          simp only [hb2, if_true]
          split
          · simp
          · simp [migrationUpdate]
        | false =>
          simp only [hb2, Bool.false_eq_true, if_false]
          simp
  have htrace2 : jsTruthyStr profile.agent_wallet_address = true →
      (getAgentAddress env profile).1 = [] ∨
      (∃ k, (getAgentAddress env profile).1 = [migrationUpdate env k]) ∨
      (getAgentAddress env profile).1 = [rotationUpdate env] ∨
      (∃ k, (getAgentAddress env profile).1 =
        [migrationUpdate env k, rotationUpdate env]) := by
    intro haddr
    unfold getAgentAddress
    simp only [haddr, if_true]
    cases hb0 : jsTruthyStr profile.agent_wallet_private_key_encrypted with
    | false =>
      simp only [hb0, Bool.false_eq_true, if_false]
      simp [jsTruthyStr]
    | true =>
      simp only [hb0, if_true]
      cases hb1 : jsTruthyStr
          (env.decryptPrivateKey (profile.agent_wallet_private_key_encrypted.getD "")) with
      | true =>
        simp only [hb1, if_true]
        split
        · simp
        · simp
      | false =>
        simp only [hb1, Bool.false_eq_true, if_false]
        cases hb2 : jsTruthyStr
            (decryptLegacyKey env.atob
              (profile.agent_wallet_private_key_encrypted.getD "")) with
        | true =>
          simp only [hb2, if_true]
          split
          · simp
          · simp [migrationUpdate]
        | false =>
          simp only [hb2, Bool.false_eq_true, if_false]
          simp
  refine ⟨?_, ?_, ?_, ?_⟩
  · intro u hu hne
    rcases htrace with ht | ⟨k, ht⟩ | ht | ⟨k, ht⟩ <;> rw [ht] at hu <;> simp at hu
    · exact absurd (hu ▸ rfl : u.agent_wallet_address = none) hne
    · exact hu
    · rcases hu with hu | hu
      · exact absurd (hu ▸ rfl : u.agent_wallet_address = none) hne
      · exact hu
  · intro haddr u hu hne
    rcases htrace2 haddr with ht | ⟨k, ht⟩ | ht | ⟨k, ht⟩ <;> rw [ht] at hu <;> simp at hu
    · exact absurd (hu ▸ rfl : u.agent_wallet_address = none) hne
    · exact hu
    · rcases hu with hu | hu
      · exact absurd (hu ▸ rfl : u.agent_wallet_address = none) hne
      · exact hu
  · intro haddr
    constructor
    · unfold getAgentAddress
      simp only [haddr, Bool.false_eq_true, if_false]
      rfl
    · unfold getAgentAddress
      simp only [haddr, Bool.false_eq_true, if_false]
      simp [applyUpdates, applyUpdate]
  · intro hex
    rcases htrace with ht | ⟨k, ht⟩ | ht | ⟨k, ht⟩ <;> rw [ht] at hex ⊢
    · simp at hex
    · simp [migrationUpdate] at hex
    · simp [applyUpdates, applyUpdate, rotationUpdate, hround]
    · simp [applyUpdates, applyUpdate, rotationUpdate, migrationUpdate, hround]


/-- C3 amended witness: with no stored address, the single update of the
fresh-creation path writes address and ciphertext only and the stored
authorization timestamp is unchanged. -/
theorem c3_amended_witness :
    (getAgentAddress
        { decryptPrivateKey := fun s => if s = "enc:newkey" then some "newkey" else none,
          atob := fun _ => none, encryptPrivateKey := fun k => "enc:" ++ k,
          generatePrivateKey := "newkey", privateKeyToAddress := fun k => "addr:" ++ k }
        { agent_wallet_address := none, agent_wallet_private_key_encrypted := none,
          agent_wallet_authorized_at := none }).1 =
      [freshCreateUpdate
        { decryptPrivateKey := fun s => if s = "enc:newkey" then some "newkey" else none,
          atob := fun _ => none, encryptPrivateKey := fun k => "enc:" ++ k,
          generatePrivateKey := "newkey", privateKeyToAddress := fun k => "addr:" ++ k }] ∧
    (applyUpdates
        { agent_wallet_address := none, agent_wallet_private_key_encrypted := none,
          agent_wallet_authorized_at := none }
        (getAgentAddress
          { decryptPrivateKey := fun s => if s = "enc:newkey" then some "newkey" else none,
            atob := fun _ => none, encryptPrivateKey := fun k => "enc:" ++ k,
            generatePrivateKey := "newkey",
            privateKeyToAddress := fun k => "addr:" ++ k }
          { agent_wallet_address := none, agent_wallet_private_key_encrypted := none,
            agent_wallet_authorized_at := none }).1).agent_wallet_authorized_at =
      ({ agent_wallet_address := none, agent_wallet_private_key_encrypted := none,
         agent_wallet_authorized_at := none } : ProfileRow).agent_wallet_authorized_at :=
  (c3_amended
    { decryptPrivateKey := fun s => if s = "enc:newkey" then some "newkey" else none,
      atob := fun _ => none, encryptPrivateKey := fun k => "enc:" ++ k,
      generatePrivateKey := "newkey", privateKeyToAddress := fun k => "addr:" ++ k }
    { agent_wallet_address := none, agent_wallet_private_key_encrypted := none,
      agent_wallet_authorized_at := none }
    (by decide)).2.2.1 (by decide)

/-- C10 counterexample: when the legacy-recovered key derives an address
different from the stored one, the code does not continue with the
recovered key — after the key-only migration update it rotates, issuing a
second update that replaces the address and clears the authorization
timestamp, contradicting the claim that address and timestamp keep their
prior values and that the operation continues without rotating. -/
theorem c10_counterexample :
    ensureAgentWallet
        { decryptPrivateKey := fun _ => none,
          atob := fun s => if s = "legacyct" then some "salt:oldkey" else none,
          encryptPrivateKey := fun k => "enc:" ++ k, generatePrivateKey := "newkey",
          privateKeyToAddress := fun k => "addr:" ++ k }
        { agent_wallet_address := some "addr:otherkey",
          agent_wallet_private_key_encrypted := some "legacyct",
          agent_wallet_authorized_at := some "2024-01-01" } =
      ([{ agent_wallet_address := none,
          agent_wallet_private_key_encrypted := some (some "enc:oldkey"),
          agent_wallet_authorized_at := none },
        { agent_wallet_address := some (some "addr:newkey"),
          agent_wallet_private_key_encrypted := some (some "enc:newkey"),
          agent_wallet_authorized_at := some none }],
       "addr:newkey", "newkey") ∧
    (applyUpdates
        { agent_wallet_address := some "addr:otherkey",
          agent_wallet_private_key_encrypted := some "legacyct",
          agent_wallet_authorized_at := some "2024-01-01" }
        (ensureAgentWallet
          { decryptPrivateKey := fun _ => none,
            atob := fun s => if s = "legacyct" then some "salt:oldkey" else none,
            encryptPrivateKey := fun k => "enc:" ++ k, generatePrivateKey := "newkey",
            privateKeyToAddress := fun k => "addr:" ++ k }
          { agent_wallet_address := some "addr:otherkey",
            agent_wallet_private_key_encrypted := some "legacyct",
            agent_wallet_authorized_at := some "2024-01-01" }).1).agent_wallet_authorized_at =
      none := by
  constructor
  · decide
  · decide

/-- C10 amended: when new-scheme decryption fails, the legacy decoder
recovers key `k`, and `k` derives the stored address (case-insensitively),
both functions issue exactly one update writing only the
`agent_wallet_private_key_encrypted` column; the stored address and
authorization timestamp keep their prior values and the operation
continues with the recovered legacy key without rotating, so a
legacy-encrypted, already-authorized wallet remains authorized. -/
theorem c10_amended (env : CryptoEnv) (profile : ProfileRow) (ct a k : String)
    (hct : profile.agent_wallet_private_key_encrypted = some ct) (hctne : ct ≠ "")
    (ha : profile.agent_wallet_address = some a) (hane : a ≠ "")
    (hnew : env.decryptPrivateKey ct = none)
    (hleg : decryptLegacyKey env.atob ct = some k) (hk : k ≠ "")
    (hmatch : jsToLower (env.privateKeyToAddress k) = jsToLower a) :
    ensureAgentWallet env profile = ([migrationUpdate env k], a, k) ∧
    getAgentAddress env profile =
      ([migrationUpdate env k],
       { agentAddress := a,
         isAuthorized := jsTruthyStr profile.agent_wallet_authorized_at }) ∧
    (applyUpdates profile [migrationUpdate env k]).agent_wallet_address =
      profile.agent_wallet_address ∧
    (applyUpdates profile [migrationUpdate env k]).agent_wallet_authorized_at =
      profile.agent_wallet_authorized_at ∧
    (applyUpdates profile [migrationUpdate env k]).agent_wallet_private_key_encrypted =
      some (env.encryptPrivateKey k) := by
  refine ⟨?_, ?_, ?_, ?_, ?_⟩
  · unfold ensureAgentWallet
    simp [hct, ha, hctne, hane, jsTruthyStr, hnew, hleg, hk, hmatch, migrationUpdate]
  · unfold getAgentAddress
    simp [hct, ha, hctne, hane, jsTruthyStr, hnew, hleg, hk, hmatch, migrationUpdate]
  · simp [applyUpdates, applyUpdate, migrationUpdate]
  · simp [applyUpdates, applyUpdate, migrationUpdate]
  · simp [applyUpdates, applyUpdate, migrationUpdate]

/-- C10 amended witness: a legacy-encrypted, authorized, address-matching
wallet migrates with a key-only update and keeps address and key. -/
theorem c10_amended_witness :
    ensureAgentWallet
        { decryptPrivateKey := fun _ => none,
          atob := fun s => if s = "legacyct" then some "salt:oldkey" else none,
          encryptPrivateKey := fun k => "enc:" ++ k, generatePrivateKey := "newkey",
          privateKeyToAddress := fun k => "addr:" ++ k }
        { agent_wallet_address := some "addr:oldkey",
          agent_wallet_private_key_encrypted := some "legacyct",
          agent_wallet_authorized_at := some "2024-01-01" } =
      ([migrationUpdate
          { decryptPrivateKey := fun _ => none,
            atob := fun s => if s = "legacyct" then some "salt:oldkey" else none,
            encryptPrivateKey := fun k => "enc:" ++ k, generatePrivateKey := "newkey",
            privateKeyToAddress := fun k => "addr:" ++ k } "oldkey"],
       "addr:oldkey", "oldkey") :=
  (c10_amended
    { decryptPrivateKey := fun _ => none,
      atob := fun s => if s = "legacyct" then some "salt:oldkey" else none,
      encryptPrivateKey := fun k => "enc:" ++ k, generatePrivateKey := "newkey",
      privateKeyToAddress := fun k => "addr:" ++ k }
    { agent_wallet_address := some "addr:oldkey",
      agent_wallet_private_key_encrypted := some "legacyct",
      agent_wallet_authorized_at := some "2024-01-01" }
    "legacyct" "addr:oldkey" "oldkey"
    rfl (by decide) rfl (by decide) rfl (by decide) (by decide) (by decide)).1


theorem jsToFixedVal_zero_of_den_one (q : ℚ) (h : q.den = 1) :
    jsToFixedVal q 0 = q := by
  unfold jsToFixedVal
  have hq : ((q.num : ℚ)) = q := Rat.coe_int_num_of_den_eq_one h
  rw [pow_zero, mul_one, div_one, ← hq, add_comm, Int.floor_add_int]
  norm_num

theorem jsToFixedVal_zero_intCast (n : ℤ) : jsToFixedVal (n : ℚ) 0 = (n : ℚ) :=
  jsToFixedVal_zero_of_den_one _ (Rat.den_intCast n)

/-- C5 counterexample: a request carrying only a negative `quantity`
(no `amountUsd`) makes the computed quantity non-finite (`NaN`): every
validation comparison on `NaN` is false, so the executor issues the
exchange write with a non-finite size string instead of failing with a
400 — the requested quantity `-5` is below 1 and the submitted size is
not positive, yet no validation error fires. -/
theorem c5_counterexample :
    spotBuyCore { amountUsd := none, quantity := some (-5), slippage := 1,
                  currentPrice := 100, szDecimals := 0, minSz := some 1 } =
      .ok { size := none, price := some 101 } := by
  have hfloor : (Int.floor ((100 * (1 + 1 / 100) : ℚ) * 10 ^ 2 + 1 / 2) : ℤ) = 10100 := by
    rw [Int.floor_eq_iff]
    constructor <;> norm_num
  simp only [spotBuyCore, derivedQuantity, useQuantityMode, jsLt, jsDiv, jsFloor,
    jsIsInteger, formatSize, formatPrice, jsLe, jsToFixedVal, Option.map_none]
  norm_num [hfloor]

/-- C5 amended: provided the computed quantity is a (finite) number `q`
and the resolved minimum size is a number `m`: a computed quantity
strictly below `m` fails with a 400 validation error before the write
call; for `szDecimals = 0` a computed quantity below 1 fails with a 400
before the write call; and every submitted request carries a strictly
positive size which, for `szDecimals = 0`, is the floored (whole-number)
value of the computed quantity. -/
theorem c5_amended (inp : OrderInputs) (q m : ℚ)
    (hq : derivedQuantity inp = some q) (hm : inp.minSz = some m) :
    (q < m → spotBuyCore inp = .error (400, .orderTooSmall)) ∧
    (inp.szDecimals = 0 → q < 1 → ∃ t, spotBuyCore inp = .error (400, t)) ∧
    (∀ req, spotBuyCore inp = .ok req →
      ∃ qs : ℚ, req.size = some qs ∧ 0 < qs ∧
        (inp.szDecimals = 0 → qs = (Int.floor q : ℚ) ∧ qs.den = 1)) := by
  refine ⟨?_, ?_, ?_⟩
  · intro hlt
    unfold spotBuyCore
    rw [hq, hm]
    simp [jsLt, hlt]
  · intro hsz hq1
    by_cases hlt : q < m
    · exact ⟨.orderTooSmall, by unfold spotBuyCore; rw [hq, hm]; simp [jsLt, hlt]⟩
    · refine ⟨.needWholeUnit, ?_⟩
      unfold spotBuyCore
      rw [hq, hm]
      simp [jsLt, hlt, hsz, hq1]
  · intro req hok
    unfold spotBuyCore at hok
    rw [hq, hm] at hok
    by_cases hlt : q < m
    · simp [jsLt, hlt] at hok
    · simp only [jsLt, decide_eq_false hlt, Bool.false_eq_true, if_false] at hok
      by_cases hq1 : (decide (inp.szDecimals = 0) && decide (q < 1)) = true
      · rw [if_pos hq1] at hok
        cases hok
      · rw [if_neg hq1] at hok
        by_cases hint : (decide (inp.szDecimals = 0) && !jsIsInteger (some q)) = true
        · rw [if_pos hint] at hok
          simp only [jsFloor, Option.map_some', formatSize, formatPrice] at hok
          by_cases hle :
              jsLe (some (jsToFixedVal ((Int.floor q : ℤ) : ℚ) inp.szDecimals)) (some 0) = true
          · rw [if_pos hle] at hok
            cases hok
          · rw [if_neg hle] at hok
            cases hok
            have hsz0 : inp.szDecimals = 0 := by
              have := hint
              simp only [Bool.and_eq_true, decide_eq_true_eq] at this
              exact this.1
            refine ⟨jsToFixedVal ((Int.floor q : ℤ) : ℚ) inp.szDecimals, rfl, ?_, ?_⟩
            · simp only [jsLe, decide_eq_true_eq] at hle
              exact lt_of_not_ge fun hcon => hle (by linarith)
            · intro _
              rw [hsz0, jsToFixedVal_zero_intCast]
              exact ⟨rfl, Rat.den_intCast _⟩
        · rw [if_neg hint] at hok
          simp only [formatSize, formatPrice, Option.map_some'] at hok
          by_cases hle : jsLe (some (jsToFixedVal q inp.szDecimals)) (some 0) = true
          · rw [if_pos hle] at hok
            cases hok
          · rw [if_neg hle] at hok
            cases hok
            refine ⟨jsToFixedVal q inp.szDecimals, rfl, ?_, ?_⟩
            · simp only [jsLe, decide_eq_true_eq] at hle
              exact lt_of_not_ge fun hcon => hle (by linarith)
            · intro hsz0
              have hdq : q.den = 1 := by
                rw [hsz0] at hint
                simpa [jsIsInteger] using hint
              have hqint : ((q.num : ℚ)) = q := Rat.coe_int_num_of_den_eq_one hdq
              have hfl : (Int.floor q : ℚ) = q := by
                rw [← hqint, Int.floor_intCast]
              rw [hsz0, jsToFixedVal_zero_of_den_one q hdq]
              exact ⟨hfl.symm, hdq⟩


/-- C5 amended witness: a 100 USD buy at price 100 of a whole-unit asset
with minimum size 1/2 submits size 1 = floor(1). -/
theorem c5_amended_witness :
    ∃ qs : ℚ, ({ size := some 1, price := some 101 } : SubmitOrder).size = some qs ∧
      0 < qs ∧
      (({ amountUsd := some 100, quantity := none, slippage := 1, currentPrice := 100,
          szDecimals := 0, minSz := some (1/2) } : OrderInputs).szDecimals = 0 →
        qs = (Int.floor (1 : ℚ) : ℚ) ∧ qs.den = 1) :=
  (c5_amended
    { amountUsd := some 100, quantity := none, slippage := 1, currentPrice := 100,
      szDecimals := 0, minSz := some (1/2) } 1 (1/2)
    (by norm_num [derivedQuantity, useQuantityMode, jsLt, jsDiv, jsFloor])
    rfl).2.2
    { size := some 1, price := some 101 }
    (by
      have h1 : (Int.floor ((1 : ℚ) * 10 ^ 0 + 1 / 2) : ℤ) = 1 := by
        rw [Int.floor_eq_iff]
        constructor <;> norm_num
      have h2 : (Int.floor ((100 * (1 + 1 / 100) : ℚ) * 10 ^ 2 + 1 / 2) : ℤ) = 10100 := by
        rw [Int.floor_eq_iff]
        constructor <;> norm_num
      simp only [spotBuyCore, derivedQuantity, useQuantityMode, jsLt, jsDiv, jsFloor,
        jsIsInteger, formatSize, formatPrice, jsLe, jsToFixedVal]
      norm_num [h1, h2])


theorem leadsWith_self (l : List Char) : leadsWith l l = true := by
  induction l with
  | nil => rfl
  | cons c rest ih => simp [leadsWith, ih]

theorem hasSub_self (l : List Char) : hasSub l l = true := by
  cases l with
  | nil => rfl
  | cons c rest => simp [hasSub, leadsWith_self]

theorem hasSub_append_self (pre l : List Char) : hasSub l (pre ++ l) = true := by
  induction pre with
  | nil => simpa using hasSub_self l
  | cons p ps ih =>
    show (leadsWith l (p :: (ps ++ l)) || hasSub l (ps ++ l)) = true
    simp [ih]

theorem jsIncludes_append_self (pre m : String) : jsIncludes (pre ++ m) m = true := by
  unfold jsIncludes
  have hap : (pre ++ m).toList = pre.toList ++ m.toList := String.data_append pre m
  rw [hap]
  exact hasSub_append_self pre.toList m.toList

/-- C6: whenever the exchange submission (whose HTTP call returned 200
and parsed as JSON) carries `status := "err"`: if the message contains
"does not exist" (case-insensitively) the profile's authorization
timestamp is set to null in a single update and the call fails with HTTP
409 (agent-not-authorized); any other message fails with HTTP 502 with
the exchange's message preserved verbatim inside the failure reason; in
both cases no wallet transaction is recorded. -/
theorem c6_err_handling (parseFloat : String → JsNum) (ins : Nat → Bool)
    (timestamp : Nat)
    (nowIso profileId asset agentAddress formattedPrice networkMode hlResponseMsg : String)
    (status0 : Option HLStatus) :
    (postSubmitResult parseFloat ins timestamp nowIso profileId asset agentAddress
        formattedPrice networkMode "err" hlResponseMsg status0).txAttempted = none ∧
    (postSubmitResult parseFloat ins timestamp nowIso profileId asset agentAddress
        formattedPrice networkMode "err" hlResponseMsg status0).txRecorded = false ∧
    (if jsIncludes (jsToLower hlResponseMsg) "does not exist" = true then
      (postSubmitResult parseFloat ins timestamp nowIso profileId asset agentAddress
          formattedPrice networkMode "err" hlResponseMsg status0).profileUpdates =
        [{ agent_wallet_address := none, agent_wallet_private_key_encrypted := none,
           agent_wallet_authorized_at := some none }] ∧
      (postSubmitResult parseFloat ins timestamp nowIso profileId asset agentAddress
          formattedPrice networkMode "err" hlResponseMsg status0).result =
        .error (409,
          "Agent wallet not recognized by Hyperliquid yet. Open Wallet → Authorize Agent Wallet for "
            ++ agentAddress ++ ", then try again.")
    else
      (postSubmitResult parseFloat ins timestamp nowIso profileId asset agentAddress
          formattedPrice networkMode "err" hlResponseMsg status0).profileUpdates = [] ∧
      (postSubmitResult parseFloat ins timestamp nowIso profileId asset agentAddress
          formattedPrice networkMode "err" hlResponseMsg status0).result =
        .error (502, "Hyperliquid error: " ++ hlResponseMsg) ∧
      jsIncludes ("Hyperliquid error: " ++ hlResponseMsg) hlResponseMsg = true) := by
  by_cases hinc : jsIncludes (jsToLower hlResponseMsg) "does not exist" = true
  · simp [postSubmitResult, errOutcome, hinc]
  · simp [postSubmitResult, errOutcome, hinc, jsIncludes_append_self]

theorem recordTxLoop_three (ins : Nat → Bool) :
    recordTxLoop ins 3 0 = (ins 0 || ins 1 || ins 2,
      if ins 0 then [] else if ins 1 then [500] else [500, 1000]) := by
  cases h0 : ins 0 <;> cases h1 : ins 1 <;> cases h2 : ins 2 <;>
    norm_num [recordTxLoop, h0, h1, h2]


/-- C7: on a confirmed fill (a `filled` entry present, no status error,
parsed filled size strictly positive) the executor persists a wallet
transaction whose amount and price are the exchange-reported filled size
and average price (not the requested quantity or limit price), retrying
the insert up to 3 times with exponential backoff delays 500 and
1000 ms; the call returns success with the actual fill data regardless
of whether any insert attempt succeeded. -/
theorem c7_fill_recording (parseFloat : String → JsNum) (ins : Nat → Bool)
    (timestamp : Nat)
    (nowIso profileId asset agentAddress formattedPrice networkMode hlResponseMsg : String)
    (errField : Option String) (fd : HLFill) (fs ap : ℚ)
    (herr : jsTruthyStr errField = false)
    (hfs : parseFloat (if jsTruthyStr fd.totalSz then fd.totalSz.getD "" else "0") = some fs)
    (hap : parseFloat (if jsTruthyStr fd.avgPx then fd.avgPx.getD "" else "0") = some ap)
    (hpos : 0 < fs) :
    (postSubmitResult parseFloat ins timestamp nowIso profileId asset agentAddress
        formattedPrice networkMode "ok" hlResponseMsg
        (some { error := errField, filled := some fd })).result =
      .ok { orderId := if jsTruthyStr fd.oid then fd.oid.getD ""
                       else "spot-" ++ toString timestamp,
            amountUsd := some (fs * ap), amountCrypto := some fs, price := some ap } ∧
    (postSubmitResult parseFloat ins timestamp nowIso profileId asset agentAddress
        formattedPrice networkMode "ok" hlResponseMsg
        (some { error := errField, filled := some fd })).txAttempted =
      some { user_id := profileId, type := "buy", asset := asset, symbol := asset,
             amount := some fs, price := some ap, total := some (fs * ap),
             timestamp := nowIso, status := "completed",
             hyperliquid_tx_hash := some (if jsTruthyStr fd.oid then fd.oid.getD ""
                                          else "spot-" ++ toString timestamp) } ∧
    (postSubmitResult parseFloat ins timestamp nowIso profileId asset agentAddress
        formattedPrice networkMode "ok" hlResponseMsg
        (some { error := errField, filled := some fd })).txRecorded =
      (ins 0 || ins 1 || ins 2) ∧
    (postSubmitResult parseFloat ins timestamp nowIso profileId asset agentAddress
        formattedPrice networkMode "ok" hlResponseMsg
        (some { error := errField, filled := some fd })).backoffDelays =
      (if ins 0 then [] else if ins 1 then [500] else [500, 1000]) ∧
    (postSubmitResult parseFloat ins timestamp nowIso profileId asset agentAddress
        formattedPrice networkMode "ok" hlResponseMsg
        (some { error := errField, filled := some fd })).profileUpdates = [] := by
  have hne : ("ok" : String) = "err" ↔ False := by simp
  have hle : jsLe (some fs) (some 0) = false := by
    simp [jsLe]
    linarith
  unfold postSubmitResult
  simp only [hne, if_false, Option.bind_eq_bind, Option.some_bind, herr,
    Bool.false_eq_true, if_neg, hfs, hap, hle, fillOutcome, recordTxLoop_three, jsMul]
  norm_num


/-- C7 witness: a concrete fill where every insert attempt fails still
returns success carrying the exchange-reported fill data. -/
theorem c7_fill_recording_witness :
    (postSubmitResult (fun _ => some 3) (fun _ => false) 17 "now" "p1" "HYPE"
        "0xagent" "30300" "mainnet" "ok" ""
        (some { error := none,
                filled := some { totalSz := some "2.5", avgPx := some "30000",
                                 oid := some "oid-1" } })).result =
      .ok { orderId := if jsTruthyStr (some "oid-1") then
                         (some "oid-1" : Option String).getD ""
                       else "spot-" ++ toString 17,
            amountUsd := some (3 * 3), amountCrypto := some 3, price := some 3 } :=
  (c7_fill_recording (fun _ => some 3) (fun _ => false) 17 "now" "p1" "HYPE"
    "0xagent" "30300" "mainnet" "" none
    { totalSz := some "2.5", avgPx := some "30000", oid := some "oid-1" } 3 3
    rfl rfl rfl (by norm_num)).1


theorem upsertTx_map_id (db : List TxRow) (tx : TxRow)
    (h : ∀ r ∈ db, txKey r = txKey tx → r = tx) :
    db.map (fun r => if txKey r = txKey tx then tx else r) = db := by
  induction db with
  | nil => rfl
  | cons r rest ih =>
    simp only [List.map_cons]
    by_cases hk : txKey r = txKey tx
    · rw [if_pos hk, ih (fun x hx hkx => h x (by simp [hx]) hkx),
        ← h r (by simp) hk]
    · rw [if_neg hk, ih (fun x hx hkx => h x (by simp [hx]) hkx)]

theorem upsertTx_keys_surj (db : List TxRow) (tx : TxRow) (r : TxRow) (hr : r ∈ db) :
    ∃ s ∈ upsertTx db tx, txKey s = txKey r := by
  unfold upsertTx
  by_cases hany : db.any (fun x => txKey x = txKey tx) = true
  · rw [if_pos hany]
    by_cases hk : txKey r = txKey tx
    · exact ⟨tx, List.mem_map.mpr ⟨r, hr, by rw [if_pos hk]⟩, by rw [hk]⟩
    · exact ⟨r, List.mem_map.mpr ⟨r, hr, by rw [if_neg hk]⟩, rfl⟩
  · rw [if_neg hany]
    exact ⟨r, by simp [hr], rfl⟩

theorem upsertTx_other_mem (db : List TxRow) (tx : TxRow) (r : TxRow)
    (hk : txKey r ≠ txKey tx) (hr : r ∈ db) : r ∈ upsertTx db tx := by
  unfold upsertTx
  by_cases hany : db.any (fun x => txKey x = txKey tx) = true
  · rw [if_pos hany]
    exact List.mem_map.mpr ⟨r, hr, by rw [if_neg hk]⟩
  · rw [if_neg hany]
    simp [hr]

theorem upsertTx_uniqueKeys (db : List TxRow) (tx : TxRow)
    (h : db.Pairwise (fun r s => txKey r ≠ txKey s)) :
    (upsertTx db tx).Pairwise (fun r s => txKey r ≠ txKey s) := by
  unfold upsertTx
  by_cases hany : db.any (fun x => txKey x = txKey tx) = true
  · rw [if_pos hany]
    rw [List.pairwise_map]
    refine h.imp_of_mem ?_
    intro a b _ _ hab
    by_cases ha : txKey a = txKey tx <;> by_cases hb : txKey b = txKey tx
    · exact absurd (ha.trans hb.symm) hab
    · simp only [if_pos ha, if_neg hb]
      exact fun he => hb he.symm
    · simp only [if_neg ha, if_pos hb]
      exact ha
    · simp only [if_neg ha, if_neg hb]
      exact hab
  · rw [if_neg hany]
    rw [List.pairwise_append]
    refine ⟨h, List.pairwise_singleton _ _, ?_⟩
    intro a ha b hb
    simp only [List.mem_singleton] at hb
    subst hb
    simp only [List.any_eq_true, decide_eq_true_eq, not_exists, not_and] at hany
    exact hany a ha

theorem map_replace_filter (db : List TxRow) (tx : TxRow)
    (h : db.Pairwise (fun r s => txKey r ≠ txKey s))
    (hex : ∃ r ∈ db, txKey r = txKey tx) :
    (db.map (fun r => if txKey r = txKey tx then tx else r)).filter
        (fun r => decide (txKey r = txKey tx)) = [tx] := by
  induction db with
  | nil => simp at hex
  | cons x rest ih =>
    by_cases hx : txKey x = txKey tx
    · have hrest : ∀ y ∈ rest, txKey y ≠ txKey tx := by
        intro y hy he2
        exact (List.pairwise_cons.mp h).1 y hy (hx.trans he2.symm)
      have hmap : rest.map (fun r => if txKey r = txKey tx then tx else r) = rest :=
        upsertTx_map_id rest tx (fun y hy hky => absurd hky (hrest y hy))
      simp only [List.map_cons, if_pos hx, hmap, List.filter_cons,
        decide_eq_true rfl, if_pos rfl]
      have hfil : rest.filter (fun r => decide (txKey r = txKey tx)) = [] :=
        List.filter_eq_nil_iff.mpr (fun y hy => by simp [hrest y hy])
      rw [hfil]
      simp
    · have hex2 : ∃ r ∈ rest, txKey r = txKey tx := by
        rcases hex with ⟨r, hr, hkr⟩
        rcases List.mem_cons.mp hr with he | hm
        · exact absurd (he ▸ hkr) hx
        · exact ⟨r, hm, hkr⟩
      simp only [List.map_cons, if_neg hx, List.filter_cons, decide_eq_false hx,
        Bool.false_eq_true, if_false]
      exact ih (List.pairwise_cons.mp h).2 hex2

theorem upsertTx_filter_self (db : List TxRow) (tx : TxRow)
    (h : db.Pairwise (fun r s => txKey r ≠ txKey s)) :
    (upsertTx db tx).filter (fun r => decide (txKey r = txKey tx)) = [tx] := by
  unfold upsertTx
  by_cases hany : db.any (fun x => txKey x = txKey tx) = true
  · rw [if_pos hany]
    simp only [List.any_eq_true, decide_eq_true_eq] at hany
    exact map_replace_filter db tx h hany
  · rw [if_neg hany]
    simp only [List.any_eq_true, decide_eq_true_eq, not_exists, not_and] at hany
    rw [List.filter_append]
    have h1 : db.filter (fun r => decide (txKey r = txKey tx)) = [] :=
      List.filter_eq_nil_iff.mpr (fun y hy => by simp [hany y hy])
    rw [h1]
    simp

theorem map_replace_filter_other (db : List TxRow) (tx t : TxRow)
    (hk : txKey tx ≠ txKey t) :
    (db.map (fun r => if txKey r = txKey tx then tx else r)).filter
        (fun r => decide (txKey r = txKey t)) =
      db.filter (fun r => decide (txKey r = txKey t)) := by
  induction db with
  | nil => rfl
  | cons x rest ih =>
    simp only [List.map_cons, List.filter_cons]
    by_cases hx : txKey x = txKey tx
    · rw [if_pos hx]
      have h1 : (decide (txKey tx = txKey t)) = false := decide_eq_false hk
      have h2 : (decide (txKey x = txKey t)) = false :=
        decide_eq_false (fun he => hk (hx ▸ he))
      rw [h1, h2]
      simpa using ih
    · rw [if_neg hx]
      by_cases hxt : txKey x = txKey t
      · rw [decide_eq_true hxt]
        simp only [if_true]
        rw [ih]
      · rw [decide_eq_false hxt]
        simp only [Bool.false_eq_true, if_false]
        exact ih

theorem upsertTx_filter_other (db : List TxRow) (tx t : TxRow)
    (hk : txKey tx ≠ txKey t) :
    (upsertTx db tx).filter (fun r => decide (txKey r = txKey t)) =
      db.filter (fun r => decide (txKey r = txKey t)) := by
  unfold upsertTx
  by_cases hany : db.any (fun x => txKey x = txKey tx) = true
  · rw [if_pos hany]
    exact map_replace_filter_other db tx t hk
  · rw [if_neg hany]
    rw [List.filter_append]
    simp [decide_eq_false (fun he => hk he)]


theorem syncTxStep_true (db : List TxRow) (tx : TxRow) :
    syncTxStep true db tx =
      if jsTruthyStr tx.hyperliquid_tx_hash then upsertTx db tx else db := by
  unfold syncTxStep
  split <;> simp

theorem syncTxLoop_keys_surj (txs : List TxRow) (db : List TxRow) (r : TxRow)
    (hr : r ∈ db) : ∃ s ∈ syncTxLoop true db txs, txKey s = txKey r := by
  induction txs generalizing db r with
  | nil => exact ⟨r, hr, rfl⟩
  | cons t ts ih =>
    show ∃ s ∈ syncTxLoop true (syncTxStep true db t) ts, txKey s = txKey r
    rw [syncTxStep_true]
    by_cases htr : jsTruthyStr t.hyperliquid_tx_hash = true
    · rw [if_pos htr]
      obtain ⟨s, hs, hks⟩ := upsertTx_keys_surj db t r hr
      obtain ⟨s2, hs2, hks2⟩ := ih (upsertTx db t) s hs
      exact ⟨s2, hs2, hks2.trans hks⟩
    · rw [if_neg htr]
      exact ih db r hr

theorem syncTxLoop_untouched (txs : List TxRow) (db : List TxRow) (r : TxRow)
    (hr : r ∈ db) (hno : ∀ t ∈ txs, txKey t ≠ txKey r) :
    r ∈ syncTxLoop true db txs := by
  induction txs generalizing db with
  | nil => exact hr
  | cons t ts ih =>
    show r ∈ syncTxLoop true (syncTxStep true db t) ts
    rw [syncTxStep_true]
    by_cases htr : jsTruthyStr t.hyperliquid_tx_hash = true
    · rw [if_pos htr]
      exact ih (upsertTx db t)
        (upsertTx_other_mem db t r (fun he => hno t (by simp) he.symm) hr)
        (fun t' ht' => hno t' (by simp [ht']))
    · rw [if_neg htr]
      exact ih db hr (fun t' ht' => hno t' (by simp [ht']))

theorem syncTxLoop_uniqueKeys (txs : List TxRow) (db : List TxRow)
    (hdb : db.Pairwise (fun r s => txKey r ≠ txKey s)) :
    (syncTxLoop true db txs).Pairwise (fun r s => txKey r ≠ txKey s) := by
  induction txs generalizing db with
  | nil => exact hdb
  | cons t ts ih =>
    show (syncTxLoop true (syncTxStep true db t) ts).Pairwise _
    rw [syncTxStep_true]
    by_cases htr : jsTruthyStr t.hyperliquid_tx_hash = true
    · rw [if_pos htr]
      exact ih _ (upsertTx_uniqueKeys db t hdb)
    · rw [if_neg htr]
      exact ih db hdb

theorem syncTxLoop_filter_other (txs : List TxRow) (db : List TxRow) (t : TxRow)
    (hno : ∀ u ∈ txs, txKey u ≠ txKey t) :
    (syncTxLoop true db txs).filter (fun r => decide (txKey r = txKey t)) =
      db.filter (fun r => decide (txKey r = txKey t)) := by
  induction txs generalizing db with
  | nil => rfl
  | cons u us ih =>
    show (syncTxLoop true (syncTxStep true db u) us).filter _ = _
    rw [syncTxStep_true]
    by_cases htr : jsTruthyStr u.hyperliquid_tx_hash = true
    · rw [if_pos htr, ih _ (fun x hx => hno x (by simp [hx])),
        upsertTx_filter_other db u t (hno u (by simp))]
    · rw [if_neg htr]
      exact ih db (fun x hx => hno x (by simp [hx]))

theorem syncTxLoop_filter_self (txs : List TxRow) (db : List TxRow)
    (hdb : db.Pairwise (fun r s => txKey r ≠ txKey s))
    (htxs : txs.Pairwise (fun r s => txKey r ≠ txKey s))
    (t : TxRow) (ht : t ∈ txs) (htr : jsTruthyStr t.hyperliquid_tx_hash = true) :
    (syncTxLoop true db txs).filter (fun r => decide (txKey r = txKey t)) = [t] := by
  induction txs generalizing db with
  | nil => simp at ht
  | cons t0 ts ih =>
    obtain ⟨hhead, htail⟩ := List.pairwise_cons.mp htxs
    rcases List.mem_cons.mp ht with he | hm
    · subst he
      show (syncTxLoop true (syncTxStep true db t) ts).filter _ = _
      rw [syncTxStep_true, if_pos htr]
      rw [syncTxLoop_filter_other ts (upsertTx db t) t
        (fun u hu he2 => hhead u hu he2.symm)]
      exact upsertTx_filter_self db t hdb
    · show (syncTxLoop true (syncTxStep true db t0) ts).filter _ = _
      rw [syncTxStep_true]
      by_cases htr0 : jsTruthyStr t0.hyperliquid_tx_hash = true
      · rw [if_pos htr0]
        exact ih (upsertTx db t0) (upsertTx_uniqueKeys db t0 hdb) htail hm
      · rw [if_neg htr0]
        exact ih db hdb htail hm

theorem syncTxLoop_idem (txs : List TxRow) (db : List TxRow)
    (hdb : db.Pairwise (fun r s => txKey r ≠ txKey s))
    (htxs : txs.Pairwise (fun r s => txKey r ≠ txKey s)) :
    syncTxLoop true (syncTxLoop true db txs) txs = syncTxLoop true db txs := by
  induction txs generalizing db with
  | nil => rfl
  | cons t0 ts ih =>
    obtain ⟨hhead, htail⟩ := List.pairwise_cons.mp htxs
    show syncTxLoop true (syncTxStep true (syncTxLoop true (syncTxStep true db t0) ts) t0) ts =
      syncTxLoop true (syncTxStep true db t0) ts
    by_cases htr : jsTruthyStr t0.hyperliquid_tx_hash = true
    · rw [syncTxStep_true, if_pos htr]
      have hfil2 : (syncTxLoop true (syncTxStep true db t0) ts).filter
          (fun r => decide (txKey r = txKey t0)) = [t0] := by
        rw [syncTxStep_true, if_pos htr]
        rw [syncTxLoop_filter_other ts (upsertTx db t0) t0
          (fun u hu he2 => hhead u hu he2.symm)]
        exact upsertTx_filter_self db t0 hdb
      have hmem : t0 ∈ syncTxLoop true (syncTxStep true db t0) ts := by
        have : t0 ∈ (syncTxLoop true (syncTxStep true db t0) ts).filter
            (fun r => decide (txKey r = txKey t0)) := by
          rw [hfil2]
          simp
        exact List.mem_of_mem_filter this
      have hall : ∀ r ∈ syncTxLoop true (syncTxStep true db t0) ts,
          txKey r = txKey t0 → r = t0 := by
        intro r hr hkr
        have : r ∈ (syncTxLoop true (syncTxStep true db t0) ts).filter
            (fun r => decide (txKey r = txKey t0)) :=
          List.mem_filter.mpr ⟨hr, decide_eq_true hkr⟩
        rw [hfil2] at this
        simpa using this
      have hup : upsertTx (syncTxLoop true (syncTxStep true db t0) ts) t0 =
          syncTxLoop true (syncTxStep true db t0) ts := by
        unfold upsertTx
        rw [if_pos (List.any_eq_true.mpr ⟨t0, hmem, by simp⟩)]
        exact upsertTx_map_id _ t0 hall
      rw [hup]
      show syncTxLoop true (syncTxLoop true (syncTxStep true db t0) ts) ts = _
      refine ih (syncTxStep true db t0) ?_ htail
      rw [syncTxStep_true, if_pos htr]
      exact upsertTx_uniqueKeys db t0 hdb
    · conv in syncTxStep true (syncTxLoop true (syncTxStep true db t0) ts) t0 =>
        rw [syncTxStep_true, if_neg htr]
      refine ih (syncTxStep true db t0) ?_ htail
      rw [syncTxStep_true, if_neg htr]
      exact hdb

theorem syncTxLoop_no_constraint (txs : List TxRow) (db : List TxRow) :
    syncTxLoop false db txs =
      db ++ txs.filter (fun t => jsTruthyStr t.hyperliquid_tx_hash) := by
  induction txs generalizing db with
  | nil => simp [syncTxLoop]
  | cons t ts ih =>
    show syncTxLoop false (syncTxStep false db t) ts = _
    by_cases htr : jsTruthyStr t.hyperliquid_tx_hash = true
    · have hstep : syncTxStep false db t = db ++ [t] := by
        unfold syncTxStep insertTxFallback
        simp [htr]
      rw [hstep, ih, List.filter_cons, htr]
      simp
    · have hstep : syncTxStep false db t = db := by
        unfold syncTxStep
        simp [htr]
      rw [hstep, ih, List.filter_cons]
      simp [htr]


/-- C9: the sync reconciler upserts transactions keyed on
`(user_id, hyperliquid_tx_hash)` and never deletes: every pre-existing
row survives by key, and rows whose key is not synced survive verbatim;
with the unique constraint installed (the repository's migration adds
it), running the loop twice with the identical transaction list equals
running it once, each synced key ends with exactly one row holding the
synced content, and key-uniqueness is preserved; without the constraint
the upsert is rejected and the loop degrades to plain inserts whose
duplicate-key errors are suppressed (it always completes, appending the
truthy-hash rows). -/
theorem c9_sync_upsert (db txs : List TxRow)
    (hdb : db.Pairwise (fun r s => txKey r ≠ txKey s))
    (htxs : txs.Pairwise (fun r s => txKey r ≠ txKey s)) :
    (∀ r ∈ db, ∃ s ∈ syncTxLoop true db txs, txKey s = txKey r) ∧
    (∀ r ∈ db, (∀ t ∈ txs, txKey t ≠ txKey r) → r ∈ syncTxLoop true db txs) ∧
    syncTxLoop true (syncTxLoop true db txs) txs = syncTxLoop true db txs ∧
    (∀ t ∈ txs, jsTruthyStr t.hyperliquid_tx_hash = true →
      (syncTxLoop true db txs).filter (fun r => decide (txKey r = txKey t)) = [t]) ∧
    (syncTxLoop true db txs).Pairwise (fun r s => txKey r ≠ txKey s) ∧
    syncTxLoop false db txs =
      db ++ txs.filter (fun t => jsTruthyStr t.hyperliquid_tx_hash) :=
  ⟨fun r hr => syncTxLoop_keys_surj txs db r hr,
   fun r hr hno => syncTxLoop_untouched txs db r hr hno,
   syncTxLoop_idem txs db hdb htxs,
   fun t ht htr => syncTxLoop_filter_self txs db hdb htxs t ht htr,
   syncTxLoop_uniqueKeys txs db hdb,
   syncTxLoop_no_constraint txs db⟩

/-- C9 witness: syncing one concrete fill twice into an empty table
equals syncing it once. -/
theorem c9_sync_upsert_witness :
    syncTxLoop true
        (syncTxLoop true ([] : List TxRow)
          [{ user_id := "u1", type := "buy", asset := "HYPE", symbol := "HYPE",
             amount := some 1, price := some 2, total := some 2, timestamp := "t",
             status := "completed", hyperliquid_tx_hash := some "h1" }])
        [{ user_id := "u1", type := "buy", asset := "HYPE", symbol := "HYPE",
             amount := some 1, price := some 2, total := some 2, timestamp := "t",
             status := "completed", hyperliquid_tx_hash := some "h1" }] =
      syncTxLoop true ([] : List TxRow)
        [{ user_id := "u1", type := "buy", asset := "HYPE", symbol := "HYPE",
             amount := some 1, price := some 2, total := some 2, timestamp := "t",
             status := "completed", hyperliquid_tx_hash := some "h1" }] :=
  (c9_sync_upsert []
    [{ user_id := "u1", type := "buy", asset := "HYPE", symbol := "HYPE",
             amount := some 1, price := some 2, total := some 2, timestamp := "t",
             status := "completed", hyperliquid_tx_hash := some "h1" }]
    (by simp) (by simp)).2.2.1

end InvestSimply
